import Mathlib

/-!
Verification of the GraphMail email-ingestion pipeline.

Shallow embedding of the core components of the repository:
the retry engine (`app/service/retry_service.py`), the email collection
service (`app/service/emails/email_collection_service.py`), the email cache
(`app/service/emails/email_cache_service.py`), the bulk persistence
repository (`app/repository/email_repository.py`) and the recursive
ingestion orchestrator (`app/service/emails/recursive_email_service.py`).

Conventions of the embedding:
* Python dictionaries are association lists with replace-on-insert.
* Wall-clock time is an explicit rational parameter; calls to time.time()
  take their value from an explicit clock argument or oracle.
* Network and database calls are oracles passed as function arguments.
* Logging and timing-only metric fields are not modelled; counter fields
  that flow into progress snapshots are.
-/

namespace GraphMail

/-- Exception classes of the repository (flat: no reachable code path depends
on the subclass relations between these classes). -/
inductive ExnClass
  | apiError
  | integrityError
  | timeoutError
  | emailExn
  | folderExn
  | idTranslationExn
  | emailPersistenceExn
  | recursiveEmailExn
  | otherExn (code : Nat)
deriving DecidableEq, Repr

/-- RetryConfig from app/models/retries/retry_enums.py. -/
structure RetryConfig where
  max_retries : Nat
  base_delay : ℚ
  max_timeout : Option ℚ
deriving DecidableEq, Repr

/-- RetryConfigurations.PROFILES entry for FAST. -/
def RetryConfigurations.FAST : RetryConfig := ⟨2, 1, some 5⟩

/-- RetryConfigurations.PROFILES entry for STANDARD. -/
def RetryConfigurations.STANDARD : RetryConfig := ⟨3, 2, some 30⟩

/-- RetryConfigurations.PROFILES entry for BATCH. -/
def RetryConfigurations.BATCH : RetryConfig := ⟨5, 3, some 300⟩

/-- Outcome of one invocation of a retried operation: a value or a raised
exception. -/
inductive OpResult (α : Type)
  | ok (v : α)
  | raise (e : ExnClass)
deriving DecidableEq, Repr

/-- RetryContext from app/models/retries/retry_context.py.  The operation is
modelled as a function of the invocation count (the k-th call of the Python
closure), together with the wall-clock duration of each invocation.  The
metrics/error callbacks are modelled by their presence flags; the run result
counts how often each would have been called. -/
structure RetryContext (α : Type) where
  operation : Nat → OpResult α
  opDuration : Nat → ℚ
  error_msg : String := ""
  custom_exception : Option ExnClass := none
  has_metrics_recorder : Bool := false
  has_error_recorder : Bool := false
  abort_on_exceptions : List ExnClass := []

/-- The exception that escapes retry_operation, keeping the provenance the
source distinguishes: custom_exception("Operation aborted: ...") with status
409 for IntegrityError / 500 otherwise, a re-raised raw exception on abort,
custom_exception("Operation failed after N attempts: ...") on exhaustion, or
a re-raised raw exception on exhaustion. -/
inductive RaisedExn
  | abortWrapped (cls : ExnClass) (orig : ExnClass) (status : Nat)
  | abortRaw (orig : ExnClass)
  | exhaustedWrapped (cls : ExnClass) (attempts : Nat) (orig : ExnClass)
  | exhaustedRaw (orig : ExnClass)
deriving DecidableEq, Repr

/-- Observable trace of one retry_operation run.  `result = .ok none` is the
implicit Python None returned if the for-loop body never runs.
`postTimeoutSleeps` counts backoff sleeps performed after the timeout check
has fired at least once; `timedOut` records whether it ever fired. -/
structure RetryRun (α : Type) where
  result : Except RaisedExn (Option α)
  invocations : Nat
  sleeps : Nat
  postTimeoutSleeps : Nat
  metricsCalls : Nat
  errorCalls : Nat
  timedOut : Bool

/-- RetryService._calculate_delay: base_delay * 2^attempt plus a jitter
sample (drawn uniformly from plus/minus 10% of the delay), floored at 0. -/
def calcDelay (base : ℚ) (attempt : Nat) (jitterSample : ℚ) : ℚ :=
  max 0 (base * 2 ^ attempt + jitterSample)

/-- Continuation state when an attempt failed with a retryable exception and
the loop sleeps and proceeds to the next attempt. -/
structure RetryCont where
  elapsed : ℚ
  inv : Nat
  sleeps : Nat
  ptSleeps : Nat
  mc : Nat
  ec : Nat
  tOut : Bool

/-- The single except-block of RetryService.retry_operation, handling an
exception `e` raised at `attempt` (either by the operation or by the timeout
check): abort-listed exceptions raise immediately; otherwise the metrics
recorder fires, the final attempt raises, and a non-final attempt sleeps the
computed delay and continues (`Sum.inr`). -/
def retryFail (cfg : RetryConfig) (ctx : RetryContext α) (abortList : List ExnClass)
    (jitter : Nat → ℚ) (attempt : Nat) (e : ExnClass) (elapsed : ℚ)
    (inv sleeps ptSleeps mc ec : Nat) (tOut : Bool) : RetryRun α ⊕ RetryCont :=
  if e ∈ abortList then
    let ec' := ec + (if ctx.has_error_recorder then 1 else 0)
    let res : Except RaisedExn (Option α) :=
      match ctx.custom_exception with
      | some cls => .error (.abortWrapped cls e (if e = .integrityError then 409 else 500))
      | none => .error (.abortRaw e)
    .inl ⟨res, inv, sleeps, ptSleeps, mc, ec', tOut⟩
  else
    let mc' := mc + (if ctx.has_metrics_recorder then 1 else 0)
    if attempt = cfg.max_retries - 1 then
      let ec' := ec + (if ctx.has_error_recorder then 1 else 0)
      let res : Except RaisedExn (Option α) :=
        match ctx.custom_exception with
        | some cls => .error (.exhaustedWrapped cls cfg.max_retries e)
        | none => .error (.exhaustedRaw e)
      .inl ⟨res, inv, sleeps, ptSleeps, mc', ec', tOut⟩
    else
      let d := calcDelay cfg.base_delay attempt (jitter attempt)
      .inr ⟨elapsed + d, inv, sleeps + 1, ptSleeps + (if tOut then 1 else 0), mc', ec, tOut⟩

/-- The timeout guard at the top of each loop iteration:
"if self.max_timeout and time.time() - start_time > self.max_timeout"
(Python truthiness: a None or zero max_timeout disables the check). -/
def timeoutHit (cfg : RetryConfig) (elapsed : ℚ) : Bool :=
  match cfg.max_timeout with
  | some t => decide (t ≠ 0 ∧ elapsed > t)
  | none => false

/-- The for-loop of RetryService.retry_operation.  `fuel` is the number of
remaining loop iterations (retry_operation starts it at max_retries with
attempt 0; the invariant attempt + fuel = max_retries is maintained).  Before
each attempt the elapsed time is checked against max_timeout; a hit raises
TimeoutError into the same except-block that handles operation failures. -/
def retryFrom (cfg : RetryConfig) (ctx : RetryContext α) (abortList : List ExnClass)
    (jitter : Nat → ℚ) :
    Nat → Nat → ℚ → Nat → Nat → Nat → Nat → Nat → Bool → RetryRun α
  | 0, _, _, inv, sleeps, ptSleeps, mc, ec, tOut =>
      ⟨.ok none, inv, sleeps, ptSleeps, mc, ec, tOut⟩
  | fuel + 1, attempt, elapsed, inv, sleeps, ptSleeps, mc, ec, tOut =>
      if timeoutHit cfg elapsed then
        match retryFail cfg ctx abortList jitter attempt .timeoutError elapsed
            inv sleeps ptSleeps mc ec true with
        | .inl run => run
        | .inr c =>
            retryFrom cfg ctx abortList jitter fuel (attempt + 1) c.elapsed
              c.inv c.sleeps c.ptSleeps c.mc c.ec c.tOut
      else
        match ctx.operation inv with
        | .ok v => ⟨.ok (some v), inv + 1, sleeps, ptSleeps, mc, ec, tOut⟩
        | .raise e =>
            match retryFail cfg ctx abortList jitter attempt e
                (elapsed + ctx.opDuration inv) (inv + 1) sleeps ptSleeps mc ec tOut with
            | .inl run => run
            | .inr c =>
                retryFrom cfg ctx abortList jitter fuel (attempt + 1) c.elapsed
                  c.inv c.sleeps c.ptSleeps c.mc c.ec c.tOut

/-- RetryService.retry_operation: merges APIError and IntegrityError into the
abort list and runs the attempt loop from attempt 0 with zero elapsed time. -/
def retryOperation (cfg : RetryConfig) (ctx : RetryContext α) (jitter : Nat → ℚ) :
    RetryRun α :=
  let abortList := [ExnClass.apiError, ExnClass.integrityError] ++ ctx.abort_on_exceptions
  retryFrom cfg ctx abortList jitter cfg.max_retries 0 0 0 0 0 0 0 false

/-- The exception raised on the abort path (lines 90-95 of retry_service.py). -/
def abortExn (ctx : RetryContext α) (e : ExnClass) : RaisedExn :=
  match ctx.custom_exception with
  | some cls => .abortWrapped cls e (if e = .integrityError then 409 else 500)
  | none => .abortRaw e

/-- The exception raised after the final attempt fails
(lines 100-109 of retry_service.py). -/
def exhaustedExn (ctx : RetryContext α) (cfg : RetryConfig) (e : ExnClass) : RaisedExn :=
  match ctx.custom_exception with
  | some cls => .exhaustedWrapped cls cfg.max_retries e
  | none => .exhaustedRaw e

theorem retryFail_abort (cfg : RetryConfig) (ctx : RetryContext α) (aList : List ExnClass)
    (jitter : Nat → ℚ) (attempt : Nat) (e : ExnClass) (elapsed : ℚ)
    (inv sleeps pt mc ec : Nat) (tOut : Bool) (h : e ∈ aList) :
    retryFail cfg ctx aList jitter attempt e elapsed inv sleeps pt mc ec tOut =
      .inl ⟨.error (abortExn ctx e), inv, sleeps, pt, mc,
        ec + (if ctx.has_error_recorder then 1 else 0), tOut⟩ := by
  cases hce : ctx.custom_exception <;> simp [retryFail, h, abortExn, hce]

theorem retryFail_last (cfg : RetryConfig) (ctx : RetryContext α) (aList : List ExnClass)
    (jitter : Nat → ℚ) (attempt : Nat) (e : ExnClass) (elapsed : ℚ)
    (inv sleeps pt mc ec : Nat) (tOut : Bool) (h : e ∉ aList)
    (hl : attempt = cfg.max_retries - 1) :
    retryFail cfg ctx aList jitter attempt e elapsed inv sleeps pt mc ec tOut =
      .inl ⟨.error (exhaustedExn ctx cfg e), inv, sleeps, pt,
        mc + (if ctx.has_metrics_recorder then 1 else 0),
        ec + (if ctx.has_error_recorder then 1 else 0), tOut⟩ := by
  cases hce : ctx.custom_exception <;> simp [retryFail, h, hl, exhaustedExn, hce]

theorem retryFail_sleep (cfg : RetryConfig) (ctx : RetryContext α) (aList : List ExnClass)
    (jitter : Nat → ℚ) (attempt : Nat) (e : ExnClass) (elapsed : ℚ)
    (inv sleeps pt mc ec : Nat) (tOut : Bool) (h : e ∉ aList)
    (hl : attempt ≠ cfg.max_retries - 1) :
    retryFail cfg ctx aList jitter attempt e elapsed inv sleeps pt mc ec tOut =
      .inr ⟨elapsed + calcDelay cfg.base_delay attempt (jitter attempt), inv, sleeps + 1,
        pt + (if tOut then 1 else 0), mc + (if ctx.has_metrics_recorder then 1 else 0),
        ec, tOut⟩ := by
  simp [retryFail, h, hl]

/-- Once the timed-out flag is set it stays set for the rest of the run. -/
theorem retryFrom_timedOut_mono (cfg : RetryConfig) (ctx : RetryContext α)
    (aList : List ExnClass) (jitter : Nat → ℚ) :
    ∀ fuel attempt elapsed inv sleeps pt mc ec,
      (retryFrom cfg ctx aList jitter fuel attempt elapsed inv sleeps pt mc ec true).timedOut
        = true := by
  intro fuel
  induction fuel with
  | zero => intro attempt elapsed inv sleeps pt mc ec; rfl
  | succ n ih =>
      intro attempt elapsed inv sleeps pt mc ec
      rw [retryFrom]
      by_cases hT : timeoutHit cfg elapsed = true
      · rw [if_pos hT]
        by_cases hA : (ExnClass.timeoutError : ExnClass) ∈ aList
        · rw [retryFail_abort cfg ctx aList jitter attempt _ elapsed inv sleeps pt mc ec true hA]
        · by_cases hL : attempt = cfg.max_retries - 1
          · rw [retryFail_last cfg ctx aList jitter attempt _ elapsed inv sleeps pt mc ec true hA hL]
          · rw [retryFail_sleep cfg ctx aList jitter attempt _ elapsed inv sleeps pt mc ec true hA hL]
            exact ih _ _ _ _ _ _ _
      · rw [if_neg hT]
        cases hop : ctx.operation inv with
        | ok v => rfl
        | raise e =>
            dsimp only
            by_cases hA : e ∈ aList
            · rw [retryFail_abort cfg ctx aList jitter attempt e _ (inv + 1) sleeps pt mc ec true hA]
            · by_cases hL : attempt = cfg.max_retries - 1
              · rw [retryFail_last cfg ctx aList jitter attempt e _ (inv + 1) sleeps pt mc ec true hA hL]
              · rw [retryFail_sleep cfg ctx aList jitter attempt e _ (inv + 1) sleeps pt mc ec true hA hL]
                exact ih _ _ _ _ _ _ _

/-- An iteration whose timeout guard fires leaves the run timed-out. -/
theorem retryFrom_timeout_marks (cfg : RetryConfig) (ctx : RetryContext α)
    (aList : List ExnClass) (jitter : Nat → ℚ)
    (fuel attempt : Nat) (elapsed : ℚ) (inv sleeps pt mc ec : Nat) (tOut : Bool)
    (hT : timeoutHit cfg elapsed = true) :
    (retryFrom cfg ctx aList jitter (fuel + 1) attempt elapsed
      inv sleeps pt mc ec tOut).timedOut = true := by
  rw [retryFrom, if_pos hT]
  by_cases hA : (ExnClass.timeoutError : ExnClass) ∈ aList
  · rw [retryFail_abort cfg ctx aList jitter attempt _ elapsed inv sleeps pt mc ec true hA]
  · by_cases hL : attempt = cfg.max_retries - 1
    · rw [retryFail_last cfg ctx aList jitter attempt _ elapsed inv sleeps pt mc ec true hA hL]
    · rw [retryFail_sleep cfg ctx aList jitter attempt _ elapsed inv sleeps pt mc ec true hA hL]
      exact retryFrom_timedOut_mono cfg ctx aList jitter fuel _ _ _ _ _ _ _

theorem calcDelay_nonneg (base : ℚ) (attempt : Nat) (j : ℚ) :
    0 ≤ calcDelay base attempt j :=
  le_max_left 0 _

/-- If every invocation raises a non-abort-listed exception and the timeout
guard never fires, the loop performs exactly its remaining iterations, one
invocation each, and raises the terminal exception built from the last
attempt's exception. -/
theorem retryFrom_nonabort_exhausts (cfg : RetryConfig) (ctx : RetryContext α)
    (aList : List ExnClass) (jitter : Nat → ℚ) (e : Nat → ExnClass)
    (hop : ∀ k, ctx.operation k = .raise (e k))
    (habort : ∀ k, e k ∉ aList) :
    ∀ fuel attempt elapsed inv sleeps pt mc ec,
      attempt + fuel = cfg.max_retries → 1 ≤ fuel →
      (retryFrom cfg ctx aList jitter fuel attempt elapsed inv sleeps pt mc ec false).timedOut
        = false →
      (retryFrom cfg ctx aList jitter fuel attempt elapsed inv sleeps pt mc ec false).invocations
          = inv + fuel ∧
        (retryFrom cfg ctx aList jitter fuel attempt elapsed inv sleeps pt mc ec false).result
          = .error (exhaustedExn ctx cfg (e (inv + fuel - 1))) := by
  intro fuel
  induction fuel with
  | zero => intro attempt elapsed inv sleeps pt mc ec hsum h1; omega
  | succ n ih =>
      intro attempt elapsed inv sleeps pt mc ec hsum h1 hTO
      by_cases hT : timeoutHit cfg elapsed = true
      · have h2 := retryFrom_timeout_marks cfg ctx aList jitter n attempt elapsed
          inv sleeps pt mc ec false hT
        rw [h2] at hTO
        exact Bool.noConfusion hTO
      · rw [retryFrom, if_neg hT, hop inv] at hTO ⊢
        dsimp only at hTO ⊢
        cases n with
        | zero =>
            have hL : attempt = cfg.max_retries - 1 := by omega
            rw [retryFail_last cfg ctx aList jitter attempt (e inv) _ (inv + 1)
              sleeps pt mc ec false (habort inv) hL]
            exact ⟨rfl, rfl⟩
        | succ m =>
            have hL : attempt ≠ cfg.max_retries - 1 := by omega
            rw [retryFail_sleep cfg ctx aList jitter attempt (e inv) _ (inv + 1)
              sleeps pt mc ec false (habort inv) hL] at hTO ⊢
            dsimp only at hTO ⊢
            have hrec := ih (attempt + 1)
              (elapsed + ctx.opDuration inv + calcDelay cfg.base_delay attempt (jitter attempt))
              (inv + 1) (sleeps + 1) (pt + if false = true then 1 else 0)
              (mc + if ctx.has_metrics_recorder = true then 1 else 0) ec
              (by omega) (by omega) hTO
            have hidx : inv + 1 + (m + 1) - 1 = inv + (m + 1 + 1) - 1 := by omega
            rw [hidx] at hrec
            constructor
            · rw [hrec.1]; omega
            · exact hrec.2

/-- After elapsed time has exceeded a nonzero max_timeout, the operation is
never invoked again: every remaining iteration raises TimeoutError from the
guard, each non-final one performs a backoff sleep, and the loop ends with
the terminal after-N-attempts exception built from TimeoutError. -/
theorem retryFrom_after_timeout (cfg : RetryConfig) (ctx : RetryContext α)
    (aList : List ExnClass) (jitter : Nat → ℚ) (t : ℚ)
    (hmt : cfg.max_timeout = some t) (ht0 : t ≠ 0)
    (hna : (ExnClass.timeoutError : ExnClass) ∉ aList) :
    ∀ fuel attempt elapsed inv sleeps pt mc ec tOut,
      attempt + fuel = cfg.max_retries → 1 ≤ fuel → t < elapsed →
      (retryFrom cfg ctx aList jitter fuel attempt elapsed inv sleeps pt mc ec tOut).invocations
          = inv ∧
        (retryFrom cfg ctx aList jitter fuel attempt elapsed inv sleeps pt mc ec tOut).sleeps
          = sleeps + (fuel - 1) ∧
        (retryFrom cfg ctx aList jitter fuel attempt elapsed
            inv sleeps pt mc ec tOut).postTimeoutSleeps = pt + (fuel - 1) ∧
        (retryFrom cfg ctx aList jitter fuel attempt elapsed inv sleeps pt mc ec tOut).timedOut
          = true ∧
        (retryFrom cfg ctx aList jitter fuel attempt elapsed inv sleeps pt mc ec tOut).result
          = .error (exhaustedExn ctx cfg .timeoutError) := by
  intro fuel
  induction fuel with
  | zero => intro attempt elapsed inv sleeps pt mc ec tOut hsum h1; omega
  | succ n ih =>
      intro attempt elapsed inv sleeps pt mc ec tOut hsum h1 hel
      have hT : timeoutHit cfg elapsed = true := by
        simp [timeoutHit, hmt, ht0, hel]
      rw [retryFrom, if_pos hT]
      cases n with
      | zero =>
          have hL : attempt = cfg.max_retries - 1 := by omega
          rw [retryFail_last cfg ctx aList jitter attempt _ elapsed inv
            sleeps pt mc ec true hna hL]
          exact ⟨rfl, rfl, rfl, rfl, rfl⟩
      | succ m =>
          have hL : attempt ≠ cfg.max_retries - 1 := by omega
          rw [retryFail_sleep cfg ctx aList jitter attempt _ elapsed inv
            sleeps pt mc ec true hna hL]
          dsimp only
          have hel2 : t < elapsed + calcDelay cfg.base_delay attempt (jitter attempt) :=
            lt_of_lt_of_le hel (le_add_of_nonneg_right (calcDelay_nonneg _ _ _))
          have hrec := ih (attempt + 1)
            (elapsed + calcDelay cfg.base_delay attempt (jitter attempt))
            inv (sleeps + 1) (pt + if true = true then 1 else 0)
            (mc + if ctx.has_metrics_recorder = true then 1 else 0) ec true
            (by omega) (by omega) hel2
          have hone : (if (true = true) then (1 : ℕ) else 0) = 1 := rfl
          rw [hone] at hrec ⊢
          refine ⟨hrec.1, ?_, ?_, hrec.2.2.2.1, hrec.2.2.2.2⟩
          · rw [hrec.2.1]; omega
          · rw [hrec.2.2.1]; omega

/-- Claim C3 (amended): once the elapsed time exceeds a nonzero max_timeout,
retry_operation never invokes the operation again, but the timeout is not
treated as a final failure: the TimeoutError raised by the guard goes through
the generic retry handler, so every remaining non-final attempt performs a
backoff sleep, and only after the remaining attempts are consumed is the
typed (or raw) after-N-attempts exception raised. -/
theorem C3_timeout_is_retried (cfg : RetryConfig) (ctx : RetryContext α)
    (aList : List ExnClass) (jitter : Nat → ℚ) (t : ℚ)
    (fuel attempt : Nat) (elapsed : ℚ) (inv sleeps pt mc ec : Nat) (tOut : Bool)
    (hmt : cfg.max_timeout = some t) (ht0 : t ≠ 0)
    (hna : (ExnClass.timeoutError : ExnClass) ∉ aList)
    (hsum : attempt + fuel = cfg.max_retries) (hfuel : 1 ≤ fuel)
    (hel : t < elapsed) :
    (retryFrom cfg ctx aList jitter fuel attempt elapsed inv sleeps pt mc ec tOut).invocations
        = inv ∧
      (retryFrom cfg ctx aList jitter fuel attempt elapsed inv sleeps pt mc ec tOut).sleeps
        = sleeps + (fuel - 1) ∧
      (retryFrom cfg ctx aList jitter fuel attempt elapsed
          inv sleeps pt mc ec tOut).postTimeoutSleeps = pt + (fuel - 1) ∧
      (retryFrom cfg ctx aList jitter fuel attempt elapsed inv sleeps pt mc ec tOut).timedOut
        = true ∧
      (retryFrom cfg ctx aList jitter fuel attempt elapsed inv sleeps pt mc ec tOut).result
        = .error (exhaustedExn ctx cfg .timeoutError) :=
  retryFrom_after_timeout cfg ctx aList jitter t hmt ht0 hna
    fuel attempt elapsed inv sleeps pt mc ec tOut hsum hfuel hel

/-- A context whose operation always raises a plain retryable exception and
whose first invocation takes 40 seconds of wall time, exceeding the STANDARD
profile's 30-second max_timeout before the second attempt's guard check. -/
def slowOpCtx : RetryContext Unit :=
  { operation := fun _ => .raise (.otherExn 0)
    opDuration := fun k => if k = 0 then 40 else 0
    custom_exception := some .emailExn }

/-- The run of retry_operation on `slowOpCtx` under the STANDARD profile with
zero jitter samples. -/
def slowOpRun : RetryRun Unit :=
  retryOperation RetryConfigurations.STANDARD slowOpCtx (fun _ => 0)

/-- Claim C3 counterexample: on this run the timeout guard fires before the
second attempt, yet the run performs a backoff sleep after the timeout was
detected (postTimeoutSleeps = 1, total sleeps = 2) and terminates with the
after-3-attempts exhaustion exception built from TimeoutError rather than
aborting immediately with a final timeout failure. -/
theorem C3_timeout_counterexample :
    slowOpRun.timedOut = true ∧ slowOpRun.postTimeoutSleeps = 1 ∧
      slowOpRun.invocations = 1 ∧ slowOpRun.sleeps = 2 ∧
      slowOpRun.result = .error (.exhaustedWrapped .emailExn 3 .timeoutError) := by
  norm_num +decide [slowOpRun, retryOperation, RetryConfigurations.STANDARD, slowOpCtx,
    retryFrom, retryFail, calcDelay, timeoutHit]

/-- Witness for C3 (amended), applying the theorem at the loop state the
STANDARD profile reaches in the `slowOpRun` scenario: attempt 1, 42 seconds
elapsed, one invocation and one sleep performed. -/
theorem C3_timeout_is_retried_witness :
    (retryFrom RetryConfigurations.STANDARD slowOpCtx
        [ExnClass.apiError, ExnClass.integrityError] (fun _ => 0)
        2 1 42 1 1 0 0 0 true).invocations = 1 ∧
      (retryFrom RetryConfigurations.STANDARD slowOpCtx
        [ExnClass.apiError, ExnClass.integrityError] (fun _ => 0)
        2 1 42 1 1 0 0 0 true).sleeps = 2 ∧
      (retryFrom RetryConfigurations.STANDARD slowOpCtx
        [ExnClass.apiError, ExnClass.integrityError] (fun _ => 0)
        2 1 42 1 1 0 0 0 true).result
        = .error (.exhaustedWrapped .emailExn 3 .timeoutError) := by
  have h := C3_timeout_is_retried RetryConfigurations.STANDARD slowOpCtx
    [ExnClass.apiError, ExnClass.integrityError] (fun _ => 0) 30
    2 1 42 1 1 0 0 0 true rfl (by norm_num) (by simp)
    (by norm_num [RetryConfigurations.STANDARD]) (by norm_num) (by norm_num)
  exact ⟨h.1, h.2.1, h.2.2.2.2⟩

/-- Claim C4: a retry context whose operation raises a non-abort-listed
exception on every invocation is invoked exactly max_retries times (not more,
not fewer) and the typed exception (or the raw one when none is supplied) is
then raised; a context whose operation raises an abort-listed exception
(APIError and IntegrityError are always merged into the abort list) is
invoked exactly once before the typed or raw exception is raised.  Stated for
runs in which the max_timeout guard does not fire. -/
theorem C4_retry_invocation_counts (cfg : RetryConfig)
    (ctx ctxA : RetryContext α) (jitter jitterA : Nat → ℚ)
    (e : Nat → ExnClass) (eA : ExnClass)
    (hmr : 1 ≤ cfg.max_retries)
    (hop : ∀ k, ctx.operation k = .raise (e k))
    (habort : ∀ k,
      e k ∉ [ExnClass.apiError, ExnClass.integrityError] ++ ctx.abort_on_exceptions)
    (hopA : ctxA.operation 0 = .raise eA)
    (habortA : eA ∈ [ExnClass.apiError, ExnClass.integrityError] ++ ctxA.abort_on_exceptions) :
    ((retryOperation cfg ctx jitter).timedOut = false →
      (retryOperation cfg ctx jitter).invocations = cfg.max_retries ∧
        (retryOperation cfg ctx jitter).result
          = .error (exhaustedExn ctx cfg (e (cfg.max_retries - 1)))) ∧
      ((retryOperation cfg ctxA jitterA).timedOut = false →
        (retryOperation cfg ctxA jitterA).invocations = 1 ∧
          (retryOperation cfg ctxA jitterA).result = .error (abortExn ctxA eA)) := by
  constructor
  · intro hTO
    have hdef : retryOperation cfg ctx jitter
        = retryFrom cfg ctx
            ([ExnClass.apiError, ExnClass.integrityError] ++ ctx.abort_on_exceptions)
            jitter cfg.max_retries 0 0 0 0 0 0 0 false := rfl
    rw [hdef] at hTO ⊢
    have h := retryFrom_nonabort_exhausts cfg ctx
      ([ExnClass.apiError, ExnClass.integrityError] ++ ctx.abort_on_exceptions)
      jitter e hop habort cfg.max_retries 0 0 0 0 0 0 0 (by omega) hmr hTO
    simpa using h
  · intro hTO
    have hdef : retryOperation cfg ctxA jitterA
        = retryFrom cfg ctxA
            ([ExnClass.apiError, ExnClass.integrityError] ++ ctxA.abort_on_exceptions)
            jitterA cfg.max_retries 0 0 0 0 0 0 0 false := rfl
    rw [hdef] at hTO ⊢
    obtain ⟨n, hn⟩ : ∃ n, cfg.max_retries = n + 1 := ⟨cfg.max_retries - 1, by omega⟩
    rw [hn] at hTO ⊢
    by_cases hT : timeoutHit cfg 0 = true
    · have h2 := retryFrom_timeout_marks cfg ctxA
        ([ExnClass.apiError, ExnClass.integrityError] ++ ctxA.abort_on_exceptions)
        jitterA n 0 0 0 0 0 0 0 false hT
      rw [h2] at hTO
      exact Bool.noConfusion hTO
    · rw [retryFrom, if_neg hT, hopA] at hTO ⊢
      dsimp only at hTO ⊢
      rw [retryFail_abort cfg ctxA
        ([ExnClass.apiError, ExnClass.integrityError] ++ ctxA.abort_on_exceptions)
        jitterA 0 eA _ 1 0 0 0 0 false habortA] at hTO ⊢
      exact ⟨rfl, rfl⟩

/-- A context whose operation always raises a plain retryable exception
instantly (used as a concrete witness input). -/
def alwaysFailCtx : RetryContext Unit :=
  { operation := fun _ => .raise (.otherExn 7)
    opDuration := fun _ => 0
    custom_exception := some .emailExn }

/-- A context whose operation raises the always-abort-listed APIError, with
no typed exception supplied. -/
def apiErrorCtx : RetryContext Unit :=
  { operation := fun _ => .raise .apiError
    opDuration := fun _ => 0 }

/-- Witness for C4 under the STANDARD profile: the always-failing context is
invoked exactly 3 times, the APIError context exactly once. -/
theorem C4_retry_invocation_counts_witness :
    (retryOperation RetryConfigurations.STANDARD alwaysFailCtx (fun _ => 0)).invocations = 3 ∧
      (retryOperation RetryConfigurations.STANDARD apiErrorCtx (fun _ => 0)).invocations = 1 := by
  have h := C4_retry_invocation_counts RetryConfigurations.STANDARD
    alwaysFailCtx apiErrorCtx (fun _ => 0) (fun _ => 0)
    (fun _ => ExnClass.otherExn 7) ExnClass.apiError
    (by norm_num [RetryConfigurations.STANDARD])
    (fun k => rfl) (fun k => by simp [alwaysFailCtx]) rfl (by simp [apiErrorCtx])
  have ht1 : (retryOperation RetryConfigurations.STANDARD alwaysFailCtx
      (fun _ => 0)).timedOut = false := by
    norm_num +decide [retryOperation, RetryConfigurations.STANDARD, alwaysFailCtx,
      retryFrom, retryFail, calcDelay, timeoutHit]
  have ht2 : (retryOperation RetryConfigurations.STANDARD apiErrorCtx
      (fun _ => 0)).timedOut = false := by
    norm_num +decide [retryOperation, RetryConfigurations.STANDARD, apiErrorCtx,
      retryFrom, retryFail, calcDelay, timeoutHit]
  exact ⟨(h.1 ht1).1, (h.2 ht2).1⟩

/-- Python dict lookup on the association-list model of a dict. -/
def dictGet : List (String × β) → String → Option β
  | [], _ => none
  | (k', v) :: rest, k => if k' = k then some v else dictGet rest k

/-- Python dict item assignment: replace in place, else append. -/
def dictInsert : List (String × β) → String → β → List (String × β)
  | [], k, v => [(k, v)]
  | (k', v') :: rest, k, v =>
      if k' = k then (k', v) :: rest else (k', v') :: dictInsert rest k v

/-- Python del on a dict key (first occurrence; keys are kept unique by
construction). -/
def dictErase : List (String × β) → String → List (String × β)
  | [], _ => []
  | (k', v') :: rest, k => if k' = k then rest else (k', v') :: dictErase rest k

theorem dictGet_insert_self (m : List (String × β)) (k : String) (v : β) :
    dictGet (dictInsert m k v) k = some v := by
  induction m with
  | nil => simp [dictGet, dictInsert]
  | cons p rest ih =>
      by_cases h : p.1 = k
      · simp [dictInsert, dictGet, h]
      · simp [dictInsert, dictGet, h, ih]

theorem dictGet_insert_ne (m : List (String × β)) (k k' : String) (v : β)
    (h : k ≠ k') : dictGet (dictInsert m k v) k' = dictGet m k' := by
  induction m with
  | nil => simp [dictGet, dictInsert, h]
  | cons p rest ih =>
      by_cases hp : p.1 = k
      · simp [dictInsert, dictGet, hp, h]
      · simp only [dictInsert, if_neg hp, dictGet]
        by_cases hp' : p.1 = k'
        · simp [hp']
        · simp [hp', ih]

theorem dictGet_mem_keys (m : List (String × β)) (k : String) (v : β)
    (h : dictGet m k = some v) : k ∈ m.map Prod.fst := by
  induction m with
  | nil => simp [dictGet] at h
  | cons p rest ih =>
      by_cases hp : p.1 = k
      · simp [hp]
      · simp only [dictGet, if_neg hp] at h
        simp [ih h]

theorem dictInsert_fresh (m : List (String × β)) (k : String) (v : β)
    (h : k ∉ m.map Prod.fst) : dictInsert m k v = m ++ [(k, v)] := by
  induction m with
  | nil => simp [dictInsert]
  | cons p rest ih =>
      simp only [List.map_cons, List.mem_cons] at h
      push_neg at h
      have hne : ¬ p.1 = k := fun he => h.1 he.symm
      simp [dictInsert, hne, ih h.2]

/-- Python list slicing in fixed-size steps: messages[i:i+n] for
i = 0, n, 2n, ... (the loops "for i in range(0, len, n)"). -/
def chunksOf (n : Nat) : List α → List (List α)
  | [] => []
  | x :: xs =>
      if n = 0 then []
      else (x :: xs).take n :: chunksOf n ((x :: xs).drop n)
termination_by l => l.length
decreasing_by simp only [List.length_drop, List.length_cons]; omega

theorem chunksOf_nil (n : Nat) : chunksOf n ([] : List α) = [] := by
  simp [chunksOf]

theorem chunksOf_flatten (n : Nat) (hn : n ≠ 0) (l : List α) :
    (chunksOf n l).flatten = l := by
  have main : ∀ k, ∀ l : List α, l.length ≤ k → (chunksOf n l).flatten = l := by
    intro k
    induction k with
    | zero =>
        intro l hl
        have : l = [] := List.length_eq_zero.mp (Nat.le_zero.mp hl)
        simp [this, chunksOf]
    | succ k ih =>
        intro l hl
        cases l with
        | nil => simp [chunksOf]
        | cons x xs =>
            rw [chunksOf, if_neg hn]
            simp only [List.flatten_cons]
            rw [ih ((x :: xs).drop n)
              (by simp only [List.length_drop, List.length_cons] at hl ⊢; omega)]
            exact List.take_append_drop n (x :: xs)
  exact main l.length l le_rfl

theorem chunksOf_append_of_length_eq (n : Nat) (hn : n ≠ 0) (a rest : List α)
    (ha : a.length = n) : chunksOf n (a ++ rest) = a :: chunksOf n rest := by
  cases a with
  | nil => simp at ha; omega
  | cons x xs =>
      rw [List.cons_append, chunksOf, if_neg hn]
      rw [← List.cons_append]
      rw [List.take_append_of_le_length (by omega), List.drop_append_of_le_length (by omega)]
      rw [List.take_of_length_le (by omega), List.drop_eq_nil_of_le (by omega)]
      simp

theorem chunksOf_of_short (n : Nat) (hn : n ≠ 0) (l : List α) (hne : l ≠ [])
    (hl : l.length ≤ n) : chunksOf n l = [l] := by
  cases l with
  | nil => exact absurd rfl hne
  | cons x xs =>
      rw [chunksOf, if_neg hn]
      rw [List.take_of_length_le hl, List.drop_eq_nil_of_le hl]
      simp [chunksOf]

/-- A Microsoft Graph message as consumed by the collection service,
restricted to the fields the embedded code paths read.  `id` is the volatile
source id (may be absent or empty on the wire). -/
structure GraphMsg where
  id : Option String := none
  subject : Option String := none
  sender : Option String := none
  receivers : List String := []
  cc : List String := []
  bcc : List String := []
  body : String := ""
  conversation_id : Option String := none
  is_read : Bool := false
  has_attachments : Bool := false
  received_date : Int := 0
deriving DecidableEq, Repr

/-- The domain Email model (app/models/email.py) restricted to the embedded
fields; the BeautifulSoup inline-attachment scan of the body is not modelled,
so has_attachments is taken from the message flag. -/
structure Email where
  subject : String := "No Subject"
  sender : String := "Unknown"
  receivers : List String := []
  cc : List String := []
  bcc : List String := []
  body : String := ""
  conversation_id : Option String := none
  is_read : Bool := false
  has_attachments : Bool := false
  received_date : Int := 0
  message_id : Option String := none
  source_id : String
deriving DecidableEq, Repr

/-- Python "s or default" on an optional string: None and the empty string
are both falsy. -/
def pyOr (s : Option String) (d : String) : String :=
  match s with
  | some v => if v = "" then d else v
  | none => d

/-- Email.from_graph_message: builds the domain object with the translated
immutable id; source_id is the message's volatile id (the call site guards on
its presence in the id mapping, so a missing id is defaulted). -/
def Email.from_graph_message (msg : GraphMsg) (immutable_id : String) : Email :=
  { subject := pyOr msg.subject "No Subject"
    sender := msg.sender.getD "Unknown"
    receivers := msg.receivers
    cc := msg.cc
    bcc := msg.bcc
    body := msg.body
    conversation_id := msg.conversation_id
    is_read := msg.is_read
    has_attachments := msg.has_attachments
    received_date := msg.received_date
    message_id := some immutable_id
    source_id := msg.id.getD "" }

/-- BatchMetrics counters (timing-only fields and the logging path are not
modelled; every field below feeds get_progress_info or an embedded update). -/
structure BatchMetrics where
  pages_fetched : Nat := 0
  ids_translated : Nat := 0
  emails_processed : Nat := 0
  total_count : Nat := 0
  current_page_items : Nat := 0
  current_phase : String := "initializing"
  phase_progress : ℚ := 0
deriving DecidableEq, Repr

/-- The dictionary returned by BatchMetrics.get_progress_info. -/
structure ProgressInfo where
  phase : String
  progress : ℚ
  total_emails : Nat
  processed_emails : Nat
  current_phase_progress : ℚ
  pages_fetched : Nat
  ids_translated : Nat
deriving DecidableEq, Repr

/-- BatchMetrics.calculate_overall_progress. -/
def BatchMetrics.calculate_overall_progress (m : BatchMetrics) : ℚ :=
  if m.total_count = 0 then 0
  else if m.current_phase = "fetching" then
    min (100 * (((m.pages_fetched * m.current_page_items : Nat) : ℚ) / (m.total_count : ℚ))) 33
  else if m.current_phase = "translating" then
    33 + ((m.ids_translated : ℚ) / (m.total_count : ℚ)) * 33
  else if m.current_phase = "processing" then
    66 + ((m.emails_processed : ℚ) / (m.total_count : ℚ)) * 34
  else 0

/-- BatchMetrics.get_progress_info. -/
def BatchMetrics.get_progress_info (m : BatchMetrics) : ProgressInfo :=
  ⟨m.current_phase, m.calculate_overall_progress, m.total_count, m.emails_processed,
   m.phase_progress, m.pages_fetched, m.ids_translated⟩

/-- The self.config dictionary of EmailCollectionService (the max_retries and
retry_delay entries are not read by the embedded paths). -/
structure CollectionConfig where
  page_size : Nat := 50
  translation_batch_size : Nat := 1000
  email_chunk_size : Nat := 100
  max_concurrent_requests : Nat := 5
deriving DecidableEq, Repr

/-- The messages the remote API returns for one page request
(top = page_size, skip = page_num * page_size) over the folder's message
list, which models the remote folder state. -/
def fetchSinglePageMsgs (folder : List GraphMsg) (pageSize pageNum : Nat) :
    List GraphMsg :=
  (folder.drop (pageNum * pageSize)).take pageSize

/-- metrics.record_page_time as far as counters go: the page's item count is
stored (the duration is timing-only and not modelled). -/
def recordPage (m : BatchMetrics) (itemsCount : Nat) : BatchMetrics :=
  { m with current_page_items := itemsCount }

/-- _fetch_all_pages: pages 1..total_pages-1 are fetched under the semaphore
and concatenated in page-index order (asyncio.gather preserves task order);
the comprehension's "if page" filter skips empty pages.  The embedding
applies the per-page metric updates in page-index order. -/
def fetchAllPages (folder : List GraphMsg) (pageSize totalPages : Nat)
    (m : BatchMetrics) : List GraphMsg × BatchMetrics :=
  if totalPages ≤ 1 then ([], m)
  else
    let pages := (List.range' 1 (totalPages - 1)).map (fetchSinglePageMsgs folder pageSize)
    let m1 := pages.foldl (fun acc p => recordPage acc p.length) m
    let m2 := { m1 with
      pages_fetched := m1.pages_fetched + (pages.filter (fun p => !p.isEmpty)).length }
    ((pages.filter (fun p => !p.isEmpty)).flatten, m2)

/-- A value yielded by _fetch_messages: a progress dict or a message list. -/
inductive FetchItem
  | progress (p : ProgressInfo)
  | msgs (l : List GraphMsg)
deriving DecidableEq, Repr

/-- _fetch_messages: fetch page 0 with the total count, record the metrics,
yield one progress snapshot, then either yield the empty page-0 list and
stop, or compute total_pages, fetch the remaining pages and yield the full
concatenation. -/
def fetchMessages (folder : List GraphMsg) (pageSize : Nat) (m0 : BatchMetrics) :
    List FetchItem × BatchMetrics :=
  let m1 := { m0 with current_phase := "fetching" }
  let page0 := fetchSinglePageMsgs folder pageSize 0
  let totalCount := folder.length
  let m2 := recordPage m1 page0.length
  let m3 := { m2 with total_count := totalCount, pages_fetched := m2.pages_fetched + 1 }
  if page0.isEmpty then
    ([.progress m3.get_progress_info, .msgs []], m3)
  else
    let totalPages := (totalCount + pageSize - 1) / pageSize
    let ra := fetchAllPages folder pageSize totalPages m3
    ([.progress m3.get_progress_info, .msgs (page0 ++ ra.1)], ra.2)

/-- Outcome oracle for one translation batch as observed through the retry
service and the except-IdTranslationException handler: some results on
success; none when the batch failed permanently (retries exhausted, or an
abort-listed error) and the raised IdTranslationException was caught and the
batch skipped. -/
abbrev TranslateOracle := List String → Option (List (String × String))

/-- The batch loop of _translate_message_ids over the already-chunked
batches, threading (id_mapping, metrics). -/
def translateFold (translate : TranslateOracle) :
    List (List String) → List (String × String) × BatchMetrics →
      List (String × String) × BatchMetrics
  | [], st => st
  | batch :: rest, st =>
      match translate batch with
      | some results =>
          translateFold translate rest
            (results.foldl (fun mp it => dictInsert mp it.1 it.2) st.1,
             { st.2 with ids_translated := st.2.ids_translated + results.length })
      | none => translateFold translate rest st

/-- _translate_message_ids: split the ids into fixed-size batches, translate
each through the retry service, merge successful results into the mapping,
skip failed batches (except IdTranslationException: continue). -/
def translateMessageIds (translate : TranslateOracle) (batchSize : Nat)
    (messageIds : List String) (m : BatchMetrics) :
    List (String × String) × BatchMetrics :=
  translateFold translate (chunksOf batchSize messageIds) ([], m)

/-- The Python truthiness filter "[msg.id for msg in messages if msg.id]":
None and the empty string are dropped. -/
def pyMsgIds (messages : List GraphMsg) : List String :=
  messages.filterMap (fun msg =>
    match msg.id with
    | some s => if s = "" then none else some s
    | none => none)

/-- A value yielded by _translate_ids: a progress dict or the mapping dict.
Note both variants are Python dicts. -/
inductive TransItem
  | progress (p : ProgressInfo)
  | mapping (mp : List (String × String))
deriving DecidableEq, Repr

/-- _translate_ids: set the phase, yield one progress snapshot, translate the
ids, yield the mapping. -/
def translateIds (translate : TranslateOracle) (batchSize : Nat)
    (messages : List GraphMsg) (m : BatchMetrics) :
    List TransItem × BatchMetrics :=
  let m1 := { m with current_phase := "translating" }
  let tm := translateMessageIds translate batchSize (pyMsgIds messages) m1
  ([.progress m1.get_progress_info, .mapping tm.1], tm.2)

/-- A value yielded by _process_emails: a progress dict or the final list. -/
inductive ProcItem
  | progress (p : ProgressInfo)
  | emails (es : List Email)
deriving DecidableEq, Repr

/-- One chunk's Email construction: messages whose id is present in the id
mapping become domain emails, the rest are silently dropped. -/
def chunkEmails (mapping : List (String × String)) (chunk : List GraphMsg) :
    List Email :=
  chunk.filterMap (fun msg =>
    match msg.id with
    | some sid =>
        match dictGet mapping sid with
        | some target => some (Email.from_graph_message msg target)
        | none => none
    | none => none)

/-- The chunk loop of _process_emails: per chunk, build the emails, extend
the accumulator, bump the processed counter, yield a progress snapshot. -/
def processChunks (mapping : List (String × String)) :
    List (List GraphMsg) → BatchMetrics → List Email →
      List ProcItem × List Email × BatchMetrics
  | [], m, acc => ([], acc, m)
  | c :: cs, m, acc =>
      let ce := chunkEmails mapping c
      let m1 := { m with emails_processed := m.emails_processed + ce.length }
      let rest := processChunks mapping cs m1 (acc ++ ce)
      (.progress m1.get_progress_info :: rest.1, rest.2.1, rest.2.2)

/-- _process_emails: set the phase, yield a progress snapshot, walk the
chunks (one progress snapshot each), finally yield the complete email
list. -/
def processEmails (mapping : List (String × String)) (chunkSize : Nat)
    (messages : List GraphMsg) (m : BatchMetrics) :
    List ProcItem × BatchMetrics :=
  let m1 := { m with current_phase := "processing" }
  let r := processChunks mapping (chunksOf chunkSize messages) m1 []
  (.progress m1.get_progress_info :: r.1 ++ [.emails r.2.1], r.2.2)

/-- A value yielded by get_all_emails_by_folder_id: a progress dict or the
final Email list (the Python stream distinguishes them by runtime type). -/
inductive CollectItem
  | progress (p : ProgressInfo)
  | emails (es : List Email)
deriving DecidableEq, Repr

/-- The isinstance(item, list) discriminator used by every consumer. -/
def CollectItem.isList : CollectItem → Bool
  | .emails _ => true
  | .progress _ => false

/-- get_all_emails_by_folder_id.  The consumption loops mirror the Python
isinstance dispatch: every list yielded by _fetch_messages is captured into
`messages` and never re-yielded while every dict is yielded onward; in the
_translate_ids loop both yielded values (the progress snapshot and the
mapping) are dicts, so both are captured into id_mapping in yield order - the
transient progress-snapshot assignment is dead because _translate_ids always
yields the mapping last, which the fold keeps - and nothing is yielded
onward; every _process_emails item is yielded onward unchanged. -/
def getAllEmailsByFolderId (folder : List GraphMsg) (translate : TranslateOracle)
    (cfg : CollectionConfig) : List CollectItem :=
  let m0 : BatchMetrics := {}
  let fr := fetchMessages folder cfg.page_size m0
  let messages := fr.1.foldl
    (fun acc it => match it with | .msgs l => l | .progress _ => acc) []
  let yields1 := fr.1.filterMap
    (fun it => match it with
      | .progress p => some (CollectItem.progress p)
      | .msgs _ => none)
  if messages.isEmpty then yields1
  else
    let tr := translateIds translate cfg.translation_batch_size messages fr.2
    let idMapping := tr.1.foldl
      (fun acc it => match it with | .mapping mp => mp | .progress _ => acc) []
    let pr := processEmails idMapping cfg.email_chunk_size messages tr.2
    yields1 ++ pr.1.map
      (fun it => match it with
        | .progress p => CollectItem.progress p
        | .emails es => CollectItem.emails es)

theorem flatten_filter_ne_nil (l : List (List α)) :
    (l.filter (fun p => !p.isEmpty)).flatten = l.flatten := by
  induction l with
  | nil => rfl
  | cons x xs ih =>
      by_cases hx : x.isEmpty
      · have hx' : x = [] := List.isEmpty_iff.mp hx
        simp [hx', List.filter_cons, ih]
      · simp [List.filter_cons, hx, ih]

/-- Concatenating the page slices 1..k in page-index order reconstructs the
folder slice that follows page 0. -/
theorem pages_concat (folder : List GraphMsg) (P : Nat) :
    ∀ k, ((List.range' 1 k).map (fetchSinglePageMsgs folder P)).flatten
      = (folder.drop P).take (k * P) := by
  intro k
  induction k with
  | zero => simp
  | succ k ih =>
      rw [List.range'_concat, List.map_append, List.flatten_append, ih]
      simp only [List.map_cons, List.map_nil, List.flatten_cons, List.flatten_nil,
        List.append_nil]
      rw [fetchSinglePageMsgs, show (1 + 1 * k) * P = P + k * P by ring,
        ← List.drop_drop, show (k + 1) * P = k * P + P by ring, List.take_add]

/-- Page 0 plus the remaining pages reconstruct the whole folder. -/
theorem page0_append_remaining (folder : List GraphMsg) (P : Nat) (hP : 0 < P)
    (m : BatchMetrics) :
    fetchSinglePageMsgs folder P 0
        ++ (fetchAllPages folder P ((folder.length + P - 1) / P) m).1 = folder := by
  have hpage0 : fetchSinglePageMsgs folder P 0 = folder.take P := by
    simp [fetchSinglePageMsgs]
  by_cases htp : (folder.length + P - 1) / P ≤ 1
  · have hNP : folder.length ≤ P := by
      by_contra hgt
      push_neg at hgt
      have h2 : 2 ≤ (folder.length + P - 1) / P :=
        (Nat.le_div_iff_mul_le hP).mpr (by omega)
      omega
    rw [fetchAllPages, if_pos htp, hpage0]
    simp [List.take_of_length_le hNP]
  · rw [fetchAllPages, if_neg htp]
    dsimp only
    rw [flatten_filter_ne_nil, pages_concat, hpage0]
    have hdm := Nat.div_add_mod (folder.length + P - 1) P
    have hmod := Nat.mod_lt (folder.length + P - 1) hP
    obtain ⟨q, hq⟩ : ∃ q, (folder.length + P - 1) / P = q := ⟨_, rfl⟩
    obtain ⟨r, hr⟩ : ∃ r, (folder.length + P - 1) % P = r := ⟨_, rfl⟩
    rw [hq] at htp ⊢
    rw [hq, hr] at hdm
    rw [hr] at hmod
    have hcomm : q * P = P * q := Nat.mul_comm q P
    have hmul : (q - 1) * P = q * P - P := Nat.sub_one_mul q P
    have hNle : folder.length ≤ q * P := by omega
    have hq1 : 1 ≤ q := by omega
    have hPle : P ≤ q * P := Nat.le_mul_of_pos_left P (by omega)
    rw [← List.take_add]
    rw [show P + (q - 1) * P = q * P by omega]
    exact List.take_of_length_le hNle

/-- Ceiling division over the naturals equals the (N + P - 1) / P formula the
collection service computes. -/
theorem ceil_div_eq_formula (N P : Nat) (hP : 0 < P) :
    ⌈(N : ℚ) / (P : ℚ)⌉₊ = (N + P - 1) / P := by
  rcases Nat.eq_zero_or_pos N with h0 | hN
  · subst h0
    simp [Nat.div_eq_of_lt (show P - 1 < P by omega)]
  · have hq : (0 : ℚ) < (P : ℚ) := by exact_mod_cast hP
    have hdm := Nat.div_add_mod (N + P - 1) P
    have hmod := Nat.mod_lt (N + P - 1) hP
    obtain ⟨n, hn⟩ : ∃ n, (N + P - 1) / P = n := ⟨_, rfl⟩
    obtain ⟨r, hr⟩ : ∃ r, (N + P - 1) % P = r := ⟨_, rfl⟩
    rw [hn, hr] at hdm
    rw [hr] at hmod
    rw [hn]
    have hcomm : n * P = P * n := Nat.mul_comm n P
    have hmul : (n - 1) * P = n * P - P := Nat.sub_one_mul n P
    have hn1 : 1 ≤ n := by
      rw [← hn, Nat.le_div_iff_mul_le hP]; omega
    have hnat_le : N ≤ n * P := by omega
    have hnat_lt : (n - 1) * P < N := by omega
    rw [Nat.ceil_eq_iff (by omega)]
    constructor
    · rw [lt_div_iff₀ hq]
      exact_mod_cast hnat_lt
    · rw [div_le_iff₀ hq]
      exact_mod_cast hnat_le

/-- The message-list extractor on a _fetch_messages stream. -/
def fetchMsgsOf (items : List FetchItem) : List (List GraphMsg) :=
  items.filterMap (fun it =>
    match it with
    | FetchItem.msgs l => some l
    | FetchItem.progress _ => none)

/-- The list value yielded by _fetch_messages is always exactly the folder's
full message list (page 0 plus the remaining pages in index order; the empty
list when the folder is empty). -/
theorem fetchMessages_msgs (folder : List GraphMsg) (P : Nat) (hP : 0 < P)
    (m0 : BatchMetrics) :
    fetchMsgsOf (fetchMessages folder P m0).1 = [folder] := by
  by_cases h0 : (fetchSinglePageMsgs folder P 0).isEmpty
  · have hfold : folder = [] := by
      have h1 := List.isEmpty_iff.mp h0
      rw [fetchSinglePageMsgs] at h1
      simp only [Nat.zero_mul, List.drop_zero] at h1
      rcases List.take_eq_nil_iff.mp h1 with h | h
      · omega
      · exact h
    rw [fetchMessages]
    simp only [h0, if_pos]
    simp [fetchMsgsOf, hfold]
  · rw [fetchMessages]
    simp only [h0, Bool.false_eq_true, if_neg, not_false_eq_true]
    simp only [fetchMsgsOf, List.filterMap_cons, List.filterMap_nil]
    rw [page0_append_remaining folder P hP]

/-- Claim C8: for a folder of N messages fetched with page size P, the
computed total_pages value (N + P - 1) / P equals ceil(N / P), and the
concatenation of page 0 with the remaining pages taken in page-index order is
exactly the folder's message list - hence exactly N messages, ordered by page
index then in-page order, with no duplicates whenever the folder itself has
none.  (The concurrency bound itself is a scheduling property outside the
embedding; asyncio.gather returns results in task order, which the embedding
reflects by concatenating in page-index order.) -/
theorem C8_pagination_invariant (folder : List GraphMsg) (P : Nat)
    (m0 : BatchMetrics) (hP : 0 < P) :
    (folder.length + P - 1) / P = ⌈(folder.length : ℚ) / (P : ℚ)⌉₊ ∧
      fetchMsgsOf (fetchMessages folder P m0).1 = [folder] ∧
      (folder.Nodup →
        ∀ l ∈ fetchMsgsOf (fetchMessages folder P m0).1, l.Nodup) := by
  refine ⟨(ceil_div_eq_formula folder.length P hP).symm,
    fetchMessages_msgs folder P hP m0, ?_⟩
  intro hnd l hl
  rw [fetchMessages_msgs folder P hP m0] at hl
  simp only [List.mem_singleton] at hl
  subst hl
  exact hnd

/-- A five-message folder used as concrete witness input. -/
def wFolder : List GraphMsg :=
  [{ id := some "m1" }, { id := some "m2" }, { id := some "m3" },
   { id := some "m4" }, { id := some "m5" }]

/-- Witness for C8: the five-message folder with page size 2 (three pages:
2 + 2 + 1 messages). -/
theorem C8_pagination_invariant_witness :
    0 < 2 ∧
      ((wFolder.length + 2 - 1) / 2 = ⌈(wFolder.length : ℚ) / (2 : ℚ)⌉₊ ∧
        fetchMsgsOf (fetchMessages wFolder 2 {}).1 = [wFolder] ∧
        (wFolder.Nodup →
          ∀ l ∈ fetchMsgsOf (fetchMessages wFolder 2 {}).1, l.Nodup)) :=
  ⟨by decide, C8_pagination_invariant wFolder 2 {} (by decide)⟩

/-- The orchestrating loop of get_all_emails_by_folder_id forwards
_process_emails items unchanged; this is the identity re-yield viewed at the
item type. -/
def procToCollect : ProcItem → CollectItem
  | .progress p => .progress p
  | .emails es => .emails es

/-- The id mapping produced by the translation loop does not depend on the
metrics object threaded beside it. -/
theorem translateFold_fst_indep (t : TranslateOracle) :
    ∀ (batches : List (List String)) (mp : List (String × String))
      (m m' : BatchMetrics),
      (translateFold t batches (mp, m)).1 = (translateFold t batches (mp, m')).1 := by
  intro batches
  induction batches with
  | nil => intro mp m m'; rfl
  | cons b rest ih =>
      intro mp m m'
      rw [translateFold, translateFold]
      cases h : t b with
      | none => exact ih mp m m'
      | some results => exact ih _ _ _

/-- The id mapping a collection run builds for a message list (the metrics
threading does not influence it). -/
def collectMapping (translate : TranslateOracle) (cfg : CollectionConfig)
    (messages : List GraphMsg) : List (String × String) :=
  (translateMessageIds translate cfg.translation_batch_size (pyMsgIds messages) {}).1

theorem translateMessageIds_fst (t : TranslateOracle) (bs : Nat)
    (ids : List String) (m : BatchMetrics) :
    (translateMessageIds t bs ids m).1 = (translateMessageIds t bs ids {}).1 := by
  rw [translateMessageIds, translateMessageIds]
  exact translateFold_fst_indep t _ [] m {}

/-- When page 0 is non-empty, _fetch_messages yields one progress snapshot
followed by the folder's complete message list. -/
theorem fetchMessages_nonempty (folder : List GraphMsg) (P : Nat)
    (m0 : BatchMetrics) (hP : 0 < P) (hne : folder ≠ []) :
    ∃ (p : ProgressInfo) (mOut : BatchMetrics),
      fetchMessages folder P m0 = ([.progress p, .msgs folder], mOut) := by
  have h0 : (fetchSinglePageMsgs folder P 0).isEmpty = false := by
    rw [fetchSinglePageMsgs]
    simp only [Nat.zero_mul, List.drop_zero]
    rw [List.isEmpty_eq_false]
    intro hcon
    rcases List.take_eq_nil_iff.mp hcon with h | h
    · omega
    · exact hne h
  rw [fetchMessages]
  simp only [h0, Bool.false_eq_true, if_false]
  exact ⟨_, _, by rw [page0_append_remaining folder P hP]⟩

/-- Every intermediate item of the _process_emails chunk loop is a progress
snapshot. -/
theorem processChunks_all_progress (mapping : List (String × String)) :
    ∀ (cs : List (List GraphMsg)) (m : BatchMetrics) (acc : List Email),
      ∀ it ∈ (processChunks mapping cs m acc).1, ∃ p, it = ProcItem.progress p := by
  intro cs
  induction cs with
  | nil => intro m acc it hit; simp [processChunks] at hit
  | cons c rest ih =>
      intro m acc it hit
      rw [processChunks] at hit
      simp only [List.mem_cons] at hit
      rcases hit with h | h
      · exact ⟨_, h⟩
      · exact ih _ _ it h

/-- The accumulator of the _process_emails chunk loop ends as the initial
accumulator followed by the emails built from all chunks in order. -/
theorem processChunks_emails (mapping : List (String × String)) :
    ∀ (cs : List (List GraphMsg)) (m : BatchMetrics) (acc : List Email),
      (processChunks mapping cs m acc).2.1 = acc ++ chunkEmails mapping cs.flatten := by
  intro cs
  induction cs with
  | nil => intro m acc; simp [processChunks, chunkEmails]
  | cons c rest ih =>
      intro m acc
      rw [processChunks]
      dsimp only
      rw [ih]
      simp [chunkEmails, List.filterMap_append]

/-- The full stream of get_all_emails_by_folder_id on a non-empty folder: the
fetching progress snapshot followed by the forwarded _process_emails items,
built over the whole folder and the mapping of the translation loop. -/
theorem getAll_nonempty_eq (folder : List GraphMsg) (translate : TranslateOracle)
    (cfg : CollectionConfig) (hP : 0 < cfg.page_size) (hne : folder ≠ []) :
    ∃ (p1 : ProgressInfo) (mt : BatchMetrics),
      getAllEmailsByFolderId folder translate cfg
        = CollectItem.progress p1 ::
            (processEmails (collectMapping translate cfg folder)
              cfg.email_chunk_size folder mt).1.map procToCollect := by
  obtain ⟨p, mOut, hfm⟩ := fetchMessages_nonempty folder cfg.page_size {} hP hne
  rw [getAllEmailsByFolderId]
  rw [hfm]
  simp only [List.foldl_cons, List.foldl_nil, List.filterMap_cons, List.filterMap_nil]
  have hfe : folder.isEmpty = false := List.isEmpty_eq_false.mpr hne
  simp only [hfe, Bool.false_eq_true, if_false]
  rw [translateIds]
  simp only [List.foldl_cons, List.foldl_nil]
  rw [translateMessageIds_fst]
  exact ⟨p, _, rfl⟩

/-- Claim C1 (amended): when page 0 of the folder is non-empty, the stream
yielded by get_all_emails_by_folder_id contains exactly one value that is a
list and that list is the last value yielded (all other values are progress
dictionaries); but when page 0 is empty the invocation terminates after
yielding only the single fetching progress snapshot: the empty list yielded
by _fetch_messages is captured by the isinstance dispatch and never reaches
the caller, so the stream contains no list at all. -/
theorem C1_stream_shape (folder : List GraphMsg) (translate : TranslateOracle)
    (cfg : CollectionConfig) (hP : 0 < cfg.page_size) :
    (folder ≠ [] →
      (getAllEmailsByFolderId folder translate cfg).countP (fun it => it.isList) = 1 ∧
        ∃ es, (getAllEmailsByFolderId folder translate cfg).getLast?
            = some (CollectItem.emails es)) ∧
      (folder = [] →
        (getAllEmailsByFolderId folder translate cfg).countP (fun it => it.isList) = 0 ∧
          (getAllEmailsByFolderId folder translate cfg).length = 1) := by
  constructor
  · intro hne
    obtain ⟨p1, mt, heq⟩ := getAll_nonempty_eq folder translate cfg hP hne
    rw [heq, processEmails]
    dsimp only
    simp only [List.map_append, List.map_cons, List.map_nil, procToCollect]
    have hzero : List.countP (fun it => it.isList)
        (List.map procToCollect (processChunks (collectMapping translate cfg folder)
          (chunksOf cfg.email_chunk_size folder)
          { mt with current_phase := "processing" } []).1) = 0 := by
      rw [List.countP_eq_zero]
      intro a ha
      rw [List.mem_map] at ha
      obtain ⟨b, hb, hab⟩ := ha
      obtain ⟨pb, hpb⟩ := processChunks_all_progress _ _ _ _ b hb
      subst hpb
      rw [← hab]
      simp [procToCollect, CollectItem.isList]
    constructor
    · simp only [List.countP_cons, List.countP_append, List.countP_nil,
        CollectItem.isList, hzero]
      simp
      intro a ha
      obtain ⟨pb, hpb⟩ := processChunks_all_progress _ _ _ _ a ha
      subst hpb
      rfl
    · simp only [← List.cons_append]
      exact ⟨_, List.getLast?_concat _⟩
  · intro hempty
    subst hempty
    constructor
    · simp [getAllEmailsByFolderId, fetchMessages, fetchSinglePageMsgs,
        CollectItem.isList]
    · simp [getAllEmailsByFolderId, fetchMessages, fetchSinglePageMsgs]

/-- A translation oracle that fails every batch. -/
def emptyTranslate : TranslateOracle := fun _ => none

/-- The stream get_all_emails_by_folder_id yields for an empty folder under
the default configuration. -/
def emptyFolderStream : List CollectItem :=
  getAllEmailsByFolderId [] emptyTranslate {}

/-- Claim C1 counterexample: for an empty folder the stream contains zero
list values - there is no terminal empty-list payload - contradicting both
"exactly one value that is a list" and "short-circuits by yielding an empty
list as its terminal payload".  The single yielded value is the fetching
progress dictionary. -/
theorem C1_counterexample :
    emptyFolderStream.countP (fun it => it.isList) = 0 ∧
      emptyFolderStream.length = 1 := by
  decide

/-- A translation oracle that succeeds on every batch, pairing each id with a
tagged target id (concrete witness input). -/
def wTranslate : TranslateOracle :=
  fun ids => some (ids.map (fun i => (i, String.append i "-t")))

/-- Witness for C1 (amended) at the five-message folder under the default
configuration. -/
theorem C1_stream_shape_witness :
    0 < ({} : CollectionConfig).page_size ∧
      ((getAllEmailsByFolderId wFolder wTranslate {}).countP (fun it => it.isList) = 1 ∧
        ∃ es, (getAllEmailsByFolderId wFolder wTranslate {}).getLast?
            = some (CollectItem.emails es)) :=
  ⟨by decide, (C1_stream_shape wFolder wTranslate {} (by decide)).1 (by decide)⟩

/-- Folding dict insertions of pairwise-fresh keys over a dict they do not
collide with appends the pairs in order. -/
theorem foldl_dictInsert_fresh (rs : List (String × β)) :
    ∀ (m : List (String × β)), (rs.map Prod.fst).Nodup →
      (∀ k ∈ rs.map Prod.fst, k ∉ m.map Prod.fst) →
      rs.foldl (fun mp it => dictInsert mp it.1 it.2) m = m ++ rs := by
  induction rs with
  | nil => intro m _ _; simp
  | cons p rest ih =>
      intro m hnd hdisj
      simp only [List.map_cons, List.nodup_cons] at hnd
      simp only [List.foldl_cons]
      rw [dictInsert_fresh m p.1 p.2 (hdisj p.1 (by simp))]
      rw [ih (m ++ [p]) hnd.2 ?_]
      · simp
      · intro k hk
        have h1 : k ∉ m.map Prod.fst := hdisj k (by simp [hk])
        have h2 : k ≠ p.1 := fun he => hnd.1 (he ▸ hk)
        simp only [List.map_append, List.mem_append, List.map_cons, List.map_nil,
          List.mem_singleton]
        push_neg
        exact ⟨h1, h2⟩

/-- Every Email built by the processing phase carries a source_id that is a
key of the id mapping. -/
theorem chunkEmails_source_id_mem (mapping : List (String × String))
    (chunk : List GraphMsg) (e : Email) (he : e ∈ chunkEmails mapping chunk) :
    e.source_id ∈ mapping.map Prod.fst := by
  rw [chunkEmails, List.mem_filterMap] at he
  obtain ⟨msg, hmsg, hsome⟩ := he
  cases hid : msg.id with
  | none => rw [hid] at hsome; simp at hsome
  | some sid =>
      rw [hid] at hsome
      dsimp only at hsome
      cases hget : dictGet mapping sid with
      | none => rw [hget] at hsome; simp at hsome
      | some target =>
          rw [hget] at hsome
          simp only [Option.some_inj] at hsome
          have hsrc : e.source_id = sid := by
            rw [← hsome, Email.from_graph_message, hid]
            rfl
          rw [hsrc]
          exact dictGet_mem_keys mapping sid target hget

/-- Claim C6: when the ids split into three translation batches of which the
second permanently fails while the first and third succeed, the invocation
still completes with a final Email list (it does not raise): the id mapping
is exactly the entries of the successful batches, the final list is built
from that mapping, and every produced Email's source_id is a key of it - so
every message whose id was only in the failed batch is excluded. -/
theorem C6_translation_partial_failure (folder : List GraphMsg)
    (translate : TranslateOracle) (cfg : CollectionConfig)
    (B1 B2 B3 : List String) (r1 r3 : List (String × String))
    (hP : 0 < cfg.page_size) (hC : 0 < cfg.email_chunk_size) (hne : folder ≠ [])
    (hsplit : chunksOf cfg.translation_batch_size (pyMsgIds folder) = [B1, B2, B3])
    (h1 : translate B1 = some r1) (h2 : translate B2 = none)
    (h3 : translate B3 = some r3)
    (hkeys : ((r1 ++ r3).map Prod.fst).Nodup) :
    collectMapping translate cfg folder = r1 ++ r3 ∧
      (∃ A, getAllEmailsByFolderId folder translate cfg
          = A ++ [CollectItem.emails (chunkEmails (r1 ++ r3) folder)]) ∧
      ∀ e ∈ chunkEmails (r1 ++ r3) folder,
        e.source_id ∈ (r1 ++ r3).map Prod.fst := by
  have hknd := hkeys
  rw [List.map_append, List.nodup_append] at hknd
  obtain ⟨hnd1, hnd3, hdisj⟩ := hknd
  have hmap : collectMapping translate cfg folder = r1 ++ r3 := by
    rw [collectMapping, translateMessageIds, hsplit]
    rw [translateFold, h1]
    dsimp only
    rw [translateFold, h2]
    dsimp only
    rw [translateFold, h3]
    dsimp only
    rw [translateFold]
    dsimp only
    rw [foldl_dictInsert_fresh r1 [] hnd1 (by simp)]
    rw [List.nil_append]
    rw [foldl_dictInsert_fresh r3 r1 hnd3 ?_]
    intro k hk hmem
    exact hdisj hmem hk
  refine ⟨hmap, ?_, ?_⟩
  · obtain ⟨p1, mt, heq⟩ := getAll_nonempty_eq folder translate cfg hP hne
    rw [heq, hmap, processEmails]
    dsimp only
    rw [processChunks_emails]
    rw [List.nil_append, chunksOf_flatten cfg.email_chunk_size (by omega) folder]
    simp only [List.map_append, List.map_cons, List.map_nil, procToCollect]
    exact ⟨_, by rw [← List.cons_append]⟩
  · intro e he
    exact chunkEmails_source_id_mem (r1 ++ r3) folder e he

/-- Witness configuration: translation batch size 1 so that three messages
form three translation batches. -/
def cfg6 : CollectionConfig := { translation_batch_size := 1 }

/-- Three-message witness folder with ids a, b, c. -/
def folderC6 : List GraphMsg :=
  [{ id := some "a" }, { id := some "b" }, { id := some "c" }]

/-- Witness oracle: batches [a] and [c] translate successfully, batch [b]
fails permanently. -/
def translate6 : TranslateOracle := fun batch =>
  if batch = ["a"] then some [("a", "ta")]
  else if batch = ["c"] then some [("c", "tc")]
  else none

/-- Witness for C6: with batch 2 of 3 failing, the mapping is exactly the
entries from batches 1 and 3, the stream still ends in the final Email list,
and every produced email's source_id is a key of that mapping. -/
theorem C6_translation_partial_failure_witness :
    folderC6 ≠ [] ∧
      collectMapping translate6 cfg6 folderC6 = [("a", "ta")] ++ [("c", "tc")] ∧
      (∃ A, getAllEmailsByFolderId folderC6 translate6 cfg6
          = A ++ [CollectItem.emails
              (chunkEmails ([("a", "ta")] ++ [("c", "tc")]) folderC6)]) ∧
      ∀ e ∈ chunkEmails ([("a", "ta")] ++ [("c", "tc")]) folderC6,
        e.source_id ∈ (([("a", "ta")] ++ [("c", "tc")]).map Prod.fst) := by
  have h := C6_translation_partial_failure folderC6 translate6 cfg6
    ["a"] ["b"] ["c"] [("a", "ta")] [("c", "tc")]
    (by decide) (by decide) (by decide)
    (by simp [pyMsgIds, folderC6, cfg6, chunksOf])
    (by simp [translate6]) (by simp [translate6]) (by simp [translate6])
    (by decide)
  exact ⟨by decide, h.1, h.2.1, h.2.2⟩

/-- CacheEntry from app/service/emails/email_cache_service.py: the per-folder
source_id-to-Email map with its store timestamp. -/
structure CacheEntry where
  emails : List (String × Email)
  timestamp : ℚ
  folder_id : String
deriving DecidableEq, Repr

/-- EmailCacheService state: the folder-id-to-entry dict and the TTL
(constructor default 300 seconds). -/
structure EmailCacheService where
  cache : List (String × CacheEntry) := []
  cache_ttl : ℚ := 300
deriving DecidableEq, Repr

/-- store_folder_emails: build a fresh source_id-to-Email map and replace the
folder's entry, stamping the current time. -/
def storeFolderEmails (svc : EmailCacheService) (now : ℚ) (folder_id : String)
    (emails : List Email) : EmailCacheService :=
  let email_map := emails.foldl (fun m e => dictInsert m e.source_id e) []
  { svc with cache := dictInsert svc.cache folder_id ⟨email_map, now, folder_id⟩ }

/-- clear_folder_cache: delete the folder's entry when present. -/
def clearFolderCache (svc : EmailCacheService) (folder_id : String) :
    EmailCacheService :=
  { svc with cache := dictErase svc.cache folder_id }

/-- _is_folder_cached: a lookup against an expired entry first deletes it and
reports a miss; expiry is strict (now - timestamp > cache_ttl). -/
def isFolderCached (svc : EmailCacheService) (now : ℚ) (folder_id : String) :
    Bool × EmailCacheService :=
  match dictGet svc.cache folder_id with
  | none => (false, svc)
  | some entry =>
      if now - entry.timestamp > svc.cache_ttl then (false, clearFolderCache svc folder_id)
      else (true, svc)

/-- get_emails_by_ids: on a cache hit, walk the requested source ids in order
and return those found in the entry's map; on a miss return the empty
list.  The unreachable none branch mirrors the dict access that the hit
guard protects. -/
def getEmailsByIds (svc : EmailCacheService) (now : ℚ) (folder_id : String)
    (source_ids : List String) : List Email × EmailCacheService :=
  let r := isFolderCached svc now folder_id
  if r.1 then
    match dictGet r.2.cache folder_id with
    | some entry => (source_ids.filterMap (fun msg_id => dictGet entry.emails msg_id), r.2)
    | none => ([], r.2)
  else ([], r.2)

/-- The dictionary returned by get_cache_info. -/
structure CacheInfo where
  folder_id : String
  email_count : Nat
  cache_age : ℚ
  cache_ttl : ℚ
deriving DecidableEq, Repr

/-- get_cache_info: None unless the folder is cached and unexpired. -/
def getCacheInfo (svc : EmailCacheService) (now : ℚ) (folder_id : String) :
    Option CacheInfo × EmailCacheService :=
  let r := isFolderCached svc now folder_id
  if r.1 then
    match dictGet r.2.cache folder_id with
    | some entry =>
        (some ⟨folder_id, entry.emails.length, now - entry.timestamp, svc.cache_ttl⟩, r.2)
    | none => (none, r.2)
  else (none, r.2)

theorem dictGet_eq_some_iff (m : List (String × β)) (hnd : (m.map Prod.fst).Nodup)
    (k : String) (v : β) : dictGet m k = some v ↔ (k, v) ∈ m := by
  induction m with
  | nil => simp [dictGet]
  | cons p rest ih =>
      simp only [List.map_cons, List.nodup_cons] at hnd
      by_cases hp : p.1 = k
      · subst hp
        rw [dictGet, if_pos rfl]
        constructor
        · intro hv
          simp only [Option.some_inj] at hv
          subst hv
          simp
        · intro hv
          rcases List.mem_cons.mp hv with he | he
          · rw [← he]
          · exact absurd (List.mem_map_of_mem Prod.fst he) hnd.1
      · rw [dictGet, if_neg hp]
        rw [ih hnd.2]
        constructor
        · intro hv; exact List.mem_cons_of_mem p hv
        · intro hv
          rcases List.mem_cons.mp hv with he | he
          · exact absurd (congrArg Prod.fst he).symm hp
          · exact he

theorem dictInsert_keys_nodup (m : List (String × β)) (k : String) (v : β)
    (hnd : (m.map Prod.fst).Nodup) :
    ((dictInsert m k v).map Prod.fst).Nodup := by
  induction m with
  | nil => simp [dictInsert]
  | cons p rest ih =>
      simp only [List.map_cons, List.nodup_cons] at hnd
      by_cases hp : p.1 = k
      · simp only [dictInsert, if_pos hp, List.map_cons, List.nodup_cons]
        exact ⟨hp ▸ hnd.1, hnd.2⟩
      · simp only [dictInsert, if_neg hp, List.map_cons, List.nodup_cons]
        refine ⟨?_, ih hnd.2⟩
        intro hmem
        have : ∀ k0 ∈ (dictInsert rest k v).map Prod.fst,
            k0 ∈ rest.map Prod.fst ∨ k0 = k := by
          clear hmem ih hnd
          induction rest with
          | nil => intro k0 h0; simp [dictInsert] at h0; exact Or.inr h0
          | cons q qs ihq =>
              intro k0 h0
              by_cases hq : q.1 = k
              · simp only [dictInsert, if_pos hq, List.map_cons, List.mem_cons] at h0 ⊢
                rcases h0 with h0 | h0
                · exact Or.inl (Or.inl h0)
                · exact Or.inl (Or.inr h0)
              · simp only [dictInsert, if_neg hq, List.map_cons, List.mem_cons] at h0 ⊢
                rcases h0 with h0 | h0
                · exact Or.inl (Or.inl h0)
                · rcases ihq k0 h0 with h1 | h1
                  · exact Or.inl (Or.inr h1)
                  · exact Or.inr h1
        rcases this p.1 hmem with h1 | h1
        · exact hnd.1 h1
        · exact hp h1

theorem dictErase_get_self (m : List (String × β)) (hnd : (m.map Prod.fst).Nodup)
    (k : String) : dictGet (dictErase m k) k = none := by
  induction m with
  | nil => simp [dictErase, dictGet]
  | cons p rest ih =>
      simp only [List.map_cons, List.nodup_cons] at hnd
      by_cases hp : p.1 = k
      · rw [dictErase, if_pos hp]
        subst hp
        cases hg : dictGet rest p.1 with
        | none => rfl
        | some v =>
            exact absurd (dictGet_mem_keys rest p.1 v hg) hnd.1
      · rw [dictErase, if_neg hp, dictGet, if_neg hp]
        exact ih hnd.2

/-- The source_id-to-Email map built by store_folder_emails resolves a key to
exactly the email of the stored list carrying that source_id (when the list's
source ids are distinct). -/
theorem emailMap_get (E : List Email) (hnd : (E.map Email.source_id).Nodup)
    (i : String) (e : Email) :
    dictGet (E.foldl (fun m x => dictInsert m x.source_id x) []) i = some e
      ↔ e ∈ E ∧ e.source_id = i := by
  have hfold : E.foldl (fun m x => dictInsert m x.source_id x) []
      = (E.map (fun x => (x.source_id, x))).foldl (fun m p => dictInsert m p.1 p.2) [] := by
    rw [List.foldl_map]
  have hkeys : ((E.map (fun x => (x.source_id, x))).map Prod.fst).Nodup := by
    rw [List.map_map]
    exact hnd
  rw [hfold, foldl_dictInsert_fresh _ [] hkeys (by simp), List.nil_append]
  rw [dictGet_eq_some_iff _ hkeys]
  constructor
  · intro hmem
    rw [List.mem_map] at hmem
    obtain ⟨x, hx, hpair⟩ := hmem
    have h1 : x.source_id = i := congrArg Prod.fst hpair
    have h2 : x = e := congrArg Prod.snd hpair
    subst h2
    exact ⟨hx, h1⟩
  · intro ⟨hmem, hsrc⟩
    rw [List.mem_map]
    exact ⟨e, hmem, by rw [hsrc]⟩

/-- Claim C7: storing a folder's emails and reading before the TTL elapses
returns exactly the stored emails whose source_id is among the requested ids;
once strictly more than cache_ttl seconds have passed, the next lookup
deletes the entry lazily and behaves as a miss: get_emails_by_ids returns []
(and the entry is gone from the cache), and get_cache_info returns None. -/
theorem C7_cache_ttl (svc : EmailCacheService) (t0 t1 : ℚ) (f : String)
    (E : List Email) (ids : List String)
    (hnd : (E.map Email.source_id).Nodup)
    (hsvc : (svc.cache.map Prod.fst).Nodup) :
    (t1 - t0 ≤ svc.cache_ttl →
      ∀ e : Email,
        e ∈ (getEmailsByIds (storeFolderEmails svc t0 f E) t1 f ids).1 ↔
          e ∈ E ∧ e.source_id ∈ ids) ∧
      (t1 - t0 > svc.cache_ttl →
        (getEmailsByIds (storeFolderEmails svc t0 f E) t1 f ids).1 = [] ∧
          dictGet ((getEmailsByIds (storeFolderEmails svc t0 f E) t1 f ids).2).cache f
            = none ∧
          (getCacheInfo (storeFolderEmails svc t0 f E) t1 f).1 = none) := by
  have hget : dictGet (storeFolderEmails svc t0 f E).cache f
      = some ⟨E.foldl (fun m e => dictInsert m e.source_id e) [], t0, f⟩ := by
    rw [storeFolderEmails]
    exact dictGet_insert_self svc.cache f _
  constructor
  · intro hle e
    have hifc : isFolderCached (storeFolderEmails svc t0 f E) t1 f
        = (true, storeFolderEmails svc t0 f E) := by
      rw [isFolderCached, hget]
      dsimp only
      rw [if_neg (by simp only [storeFolderEmails]; exact not_lt.mpr hle)]
    rw [getEmailsByIds, hifc]
    dsimp only
    rw [if_pos rfl, hget]
    dsimp only
    rw [List.mem_filterMap]
    constructor
    · intro ⟨i, hi, hgi⟩
      obtain ⟨hmem, hsrc⟩ := (emailMap_get E hnd i e).mp hgi
      exact ⟨hmem, hsrc ▸ hi⟩
    · intro ⟨hmem, hsrc⟩
      exact ⟨e.source_id, hsrc, (emailMap_get E hnd e.source_id e).mpr ⟨hmem, rfl⟩⟩
  · intro hgt
    have hifc : isFolderCached (storeFolderEmails svc t0 f E) t1 f
        = (false, clearFolderCache (storeFolderEmails svc t0 f E) f) := by
      rw [isFolderCached, hget]
      dsimp only
      rw [if_pos (by simp only [storeFolderEmails]; exact hgt)]
    have hnodup : ((storeFolderEmails svc t0 f E).cache.map Prod.fst).Nodup := by
      rw [storeFolderEmails]
      exact dictInsert_keys_nodup svc.cache f _ hsvc
    refine ⟨?_, ?_, ?_⟩
    · rw [getEmailsByIds, hifc]
      rfl
    · rw [getEmailsByIds, hifc]
      dsimp only [clearFolderCache]
      exact dictErase_get_self _ hnodup f
    · rw [getCacheInfo, hifc]
      rfl

/-- Witness inputs for C7: two emails with distinct source ids, one requested
id that is cached and one that is not. -/
def svcW : EmailCacheService := {}

/-- Witness email with source id s1. -/
def e1 : Email := { source_id := "s1" }

/-- Witness email with source id s2. -/
def e2 : Email := { source_id := "s2" }

/-- Witness email list. -/
def EW : List Email := [e1, e2]

/-- Witness requested ids: one present, one absent. -/
def idsW : List String := ["s2", "zzz"]

/-- Witness for C7: read at 100 seconds (within the default 300-second TTL)
satisfies the membership characterisation; read at 400 seconds is a miss with
the entry deleted and get_cache_info None. -/
theorem C7_cache_ttl_witness :
    ((EW.map Email.source_id).Nodup ∧ (100 : ℚ) - 0 ≤ svcW.cache_ttl) ∧
      (e2 ∈ (getEmailsByIds (storeFolderEmails svcW 0 "f" EW) 100 "f" idsW).1 ↔
        e2 ∈ EW ∧ e2.source_id ∈ idsW) ∧
      ((getEmailsByIds (storeFolderEmails svcW 0 "f" EW) 400 "f" idsW).1 = [] ∧
        dictGet ((getEmailsByIds (storeFolderEmails svcW 0 "f" EW) 400 "f" idsW).2).cache "f"
          = none ∧
        (getCacheInfo (storeFolderEmails svcW 0 "f" EW) 400 "f").1 = none) := by
  have hv := C7_cache_ttl svcW 0 100 "f" EW idsW (by decide) (by decide)
  have he := C7_cache_ttl svcW 0 400 "f" EW idsW (by decide) (by decide)
  refine ⟨⟨by decide, by norm_num [svcW]⟩, ?_, ?_⟩
  · exact hv.1 (by norm_num [svcW]) e2
  · exact he.2 (by norm_num [svcW])

/-- DBEmail row (app/models/persistence_models/email_orm.py) restricted to
the fields the repository paths read: the autoincrement primary key (None
until the post-commit refresh), the unique stable message id and the volatile
source id. -/
structure DBEmail where
  graph_message_id : String
  graph_source_id : String
  email_id : Option Nat := none
deriving DecidableEq, Repr

/-- Outcome of session.add + flush + commit for one record, as the except
clauses of _execute_persist distinguish them: success with the generated key;
an IntegrityError whose orig is a pymysql IntegrityError with the MySQL
duplicate-entry code 1062; any other IntegrityError; or any non-IntegrityError
exception. -/
inductive PersistOutcome
  | ok (newId : Nat)
  | dupIntegrity
  | otherIntegrity
  | otherError (e : ExnClass)
deriving DecidableEq, Repr

/-- EmailRepository._execute_persist: per-record insert/commit with
classification.  A duplicate-entry IntegrityError rolls back and collects the
record as duplicate; any other IntegrityError rolls back and collects it as
failed; success refreshes the record (capturing the generated key) and
collects it as successful; any non-IntegrityError exception rolls back and
re-raises, aborting the loop (the bare raise at the end of the method). -/
def executePersist (db : DBEmail → PersistOutcome) :
    List DBEmail → Except ExnClass (List DBEmail × List DBEmail × List DBEmail)
  | [] => .ok ([], [], [])
  | email :: rest =>
      match db email with
      | .ok newId =>
          match executePersist db rest with
          | .ok (s, d, f) => .ok ({ email with email_id := some newId } :: s, d, f)
          | .error e => .error e
      | .dupIntegrity =>
          match executePersist db rest with
          | .ok (s, d, f) => .ok (s, email :: d, f)
          | .error e => .error e
      | .otherIntegrity =>
          match executePersist db rest with
          | .ok (s, d, f) => .ok (s, d, email :: f)
          | .error e => .error e
      | .otherError e => .error e

/-- EmailRepository.bulk_save_emails: run the per-record loop; raise a
persistence error when the only non-empty bucket is failed; any exception
escaping the loop (or the raise just mentioned) is wrapped into
EmailPersistenceException by the enclosing except block. -/
def bulkSaveEmails (db : DBEmail → PersistOutcome) (emails : List DBEmail) :
    Except ExnClass (List DBEmail × List DBEmail × List DBEmail) :=
  match executePersist db emails with
  | .ok (s, d, f) =>
      if f ≠ [] ∧ d = [] ∧ s = [] then .error .emailPersistenceExn
      else .ok (s, d, f)
  | .error _ => .error .emailPersistenceExn

/-- The non-IntegrityError discriminator of an insert outcome. -/
def PersistOutcome.isOtherError : PersistOutcome → Bool
  | .otherError _ => true
  | _ => false

/-- Claim C2 (amended): while every insert outcome is a success or an
IntegrityError, the loop classifies each record - duplicate-entry
IntegrityError as duplicate, any other IntegrityError as failed, success as
successful with the generated internal id captured - and continues to the
remaining records; but a record whose insert raises any non-IntegrityError
exception rolls back and re-raises, aborting the loop, so the remaining
records are not processed and the whole call fails. -/
theorem C2_per_record_classification (db dbA : DBEmail → PersistOutcome)
    (emails xs ys : List DBEmail) (x : DBEmail) (e : ExnClass)
    (hok : ∀ r ∈ emails, (db r).isOtherError = false)
    (hxs : ∀ r ∈ xs, (dbA r).isOtherError = false)
    (hx : dbA x = .otherError e) :
    executePersist db emails = .ok
        (emails.filterMap (fun r => match db r with
          | .ok newId => some { r with email_id := some newId }
          | _ => none),
         emails.filterMap (fun r => if db r = .dupIntegrity then some r else none),
         emails.filterMap (fun r => if db r = .otherIntegrity then some r else none)) ∧
      executePersist dbA (xs ++ x :: ys) = .error e := by
  constructor
  · induction emails with
    | nil => rfl
    | cons r rest ih =>
        have hr := hok r (by simp)
        have hrest : ∀ r0 ∈ rest, (db r0).isOtherError = false :=
          fun r0 h0 => hok r0 (by simp [h0])
        rw [executePersist]
        cases hdb : db r with
        | ok newId => rw [ih hrest]; simp [List.filterMap_cons, hdb]
        | dupIntegrity => rw [ih hrest]; simp [List.filterMap_cons, hdb]
        | otherIntegrity => rw [ih hrest]; simp [List.filterMap_cons, hdb]
        | otherError e0 =>
            rw [hdb] at hr
            exact absurd hr (by simp [PersistOutcome.isOtherError])
  · induction xs with
    | nil => rw [List.nil_append, executePersist, hx]
    | cons r rest ih =>
        have hr := hxs r (by simp)
        have hrest : ∀ r0 ∈ rest, (dbA r0).isOtherError = false :=
          fun r0 h0 => hxs r0 (by simp [h0])
        rw [List.cons_append, executePersist]
        cases hdb : dbA r with
        | ok newId => rw [ih hrest]
        | dupIntegrity => rw [ih hrest]
        | otherIntegrity => rw [ih hrest]
        | otherError e0 =>
            rw [hdb] at hr
            exact absurd hr (by simp [PersistOutcome.isOtherError])

/-- Witness record whose insert raises a non-IntegrityError exception. -/
def emailA : DBEmail := { graph_message_id := "ma", graph_source_id := "sa" }

/-- Witness record that persists successfully. -/
def emailB : DBEmail := { graph_message_id := "mb", graph_source_id := "sb" }

/-- Witness record that is a duplicate. -/
def emailC : DBEmail := { graph_message_id := "mc", graph_source_id := "sc" }

/-- Witness record that hits a non-duplicate IntegrityError. -/
def emailD : DBEmail := { graph_message_id := "md", graph_source_id := "sd" }

/-- Witness oracle without non-IntegrityError outcomes. -/
def dbTriState : DBEmail → PersistOutcome := fun r =>
  if r = emailB then .ok 7
  else if r = emailC then .dupIntegrity
  else .otherIntegrity

/-- Witness oracle where record A raises a non-IntegrityError exception. -/
def dbAbort : DBEmail → PersistOutcome := fun r =>
  if r = emailA then .otherError (.otherExn 1) else .ok 7

/-- Claim C2 counterexample: record A's insert raises a non-IntegrityError
exception and the loop aborts - record B, which would persist fine, is never
classified; the whole call raises a persistence error instead of returning a
tri-state partition, contradicting "the loop continues to the remaining
records" and "no single record's error aborts the processing". -/
theorem C2_counterexample :
    executePersist dbAbort [emailA, emailB] = .error (.otherExn 1) ∧
      bulkSaveEmails dbAbort [emailA, emailB] = .error .emailPersistenceExn :=
  ⟨rfl, rfl⟩

/-- Witness for C2 (amended): records B, C, D are classified successful (with
the generated key captured), duplicate and failed respectively, while the
abort oracle run on A followed by B stops at A. -/
theorem C2_per_record_classification_witness :
    executePersist dbTriState [emailB, emailC, emailD] = .ok
        ([{ emailB with email_id := some 7 }], [emailC], [emailD]) ∧
      executePersist dbAbort ([] ++ emailA :: [emailB]) = .error (.otherExn 1) := by
  have h := C2_per_record_classification dbTriState dbAbort
    [emailB, emailC, emailD] [] [emailB] emailA (.otherExn 1)
    (by decide) (by decide) (by decide)
  constructor
  · rw [h.1]; rfl
  · exact h.2

/-- The data payload of the persistence_complete status event. -/
structure PersistData where
  total_emails : Nat
  successful : List Nat
  duplicates : List String
  failures : List String
deriving DecidableEq, Repr

/-- A status-event dict {status, message, folder_id?, data?} emitted by the
recursive orchestrator.  Messages that interpolate str(e) of an exception are
modelled by their fixed prefix. -/
structure StatusEvent where
  status : String
  message : String
  folder_id : Option String := none
  data : Option PersistData := none
deriving DecidableEq, Repr

/-- A value flowing through the recursive orchestrator's stream: a status
dict, a forwarded collection-progress dict, or a Python list of emails (the
consumers discriminate lists from dicts by isinstance). -/
inductive RexItem
  | statusEv (s : StatusEvent)
  | metricsEv (p : ProgressInfo)
  | emailsItem (es : List Email)
deriving DecidableEq, Repr

/-- One folder of the remote tree together with the oracle outcomes the
orchestrator observes at it: the get_folder and get_child_folders outcomes
(none = success), the collection-service stream for the folder (its yields,
then an optional exception ending the stream), and the child folders. -/
inductive FolderNode
  | mk (fid : String) (folderFetch : Option ExnClass) (childrenFetch : Option ExnClass)
      (collectItems : List CollectItem) (collectExn : Option ExnClass)
      (children : List FolderNode)

/-- The folder id of a node. -/
def FolderNode.fid : FolderNode → String
  | .mk fid _ _ _ _ _ => fid

/-- The body of the orchestrator's consumption loop for one item yielded by
the collection service (recursive_email_service.py lines 148-165): a list
runs the cache-merge logic (replacing the new_emails variable), anything else
is forwarded.  State: (new_emails, cache, next clock tick, yields so far). -/
def consumeCollectItem (clock : Nat → ℚ) (fid : String) (cachedEmails : List Email)
    (st : List Email × EmailCacheService × Nat × List RexItem) (it : CollectItem) :
    List Email × EmailCacheService × Nat × List RexItem :=
  match it with
  | .progress p => (st.1, st.2.1, st.2.2.1, st.2.2.2 ++ [RexItem.metricsEv p])
  | .emails item =>
      if cachedEmails ≠ [] then
        let cached_ids := cachedEmails.map Email.source_id
        let new_emails := item.filter (fun e => decide (e.source_id ∉ cached_ids))
        if new_emails ≠ [] then
          let all_emails := cachedEmails ++ new_emails
          let cache2 := storeFolderEmails st.2.1 (clock st.2.2.1) fid all_emails
          (new_emails, cache2, st.2.2.1 + 1,
            st.2.2.2 ++ [RexItem.statusEv
              ⟨"progress", "Found " ++ toString new_emails.length ++ " new emails",
                some fid, none⟩])
        else (new_emails, st.2.1, st.2.2.1, st.2.2.2)
      else
        let cache2 := storeFolderEmails st.2.1 (clock st.2.2.1) fid item
        (item, cache2, st.2.2.1 + 1,
          st.2.2.2 ++ [RexItem.statusEv
            ⟨"progress", "Retrieved " ++ toString item.length ++ " emails",
              some fid, none⟩])

mutual
/-- RecursiveEmailService._get_all_emails_recursively_internal on one folder:
get_folder and get_child_folders (either may raise; the enclosing
except (FolderException, EmailException) re-raises unchanged, so every
exception simply escapes), the cache check (one clock tick), the
collection-stream consumption, the combined folder email list, then the
children in order.  Returns (yields, escaping exception, cache, next tick). -/
def internalNode (clock : Nat → ℚ) :
    FolderNode → EmailCacheService → Nat →
      List RexItem × Option ExnClass × EmailCacheService × Nat
  | .mk fid ff cf items cexn children, cache, n =>
      match ff with
      | some e => ([], some e, cache, n)
      | none =>
        match cf with
        | some e => ([], some e, cache, n)
        | none =>
          let ci := getCacheInfo cache (clock n) fid
          let cachedEmails : List Email :=
            match ci.1 with
            | some _ =>
                match dictGet ci.2.cache fid with
                | some entry => entry.emails.map Prod.snd
                | none => []
            | none => []
          let yields0 : List RexItem :=
            match ci.1 with
            | some _ => [RexItem.statusEv
                ⟨"progress",
                  "Retrieved " ++ toString cachedEmails.length ++ " emails from cache",
                  some fid, none⟩]
            | none => []
          let st := items.foldl (consumeCollectItem clock fid cachedEmails)
            ([], ci.2, n + 1, yields0)
          match cexn with
          | some e => (st.2.2.2, some e, st.2.1, st.2.2.1)
          | none =>
            let all_folder_emails := cachedEmails ++ st.1
            let yields1 := st.2.2.2 ++
              (if all_folder_emails ≠ [] then [RexItem.emailsItem all_folder_emails]
               else [])
            let rc := internalChildren clock children st.2.1 st.2.2.1
            (yields1 ++ rc.1, rc.2.1, rc.2.2.1, rc.2.2.2)

/-- The subfolder loop: APIError re-raises and stops the traversal;
FolderException and EmailException are logged and the subtree is skipped,
continuing with the remaining siblings; any other exception propagates.
Items a child yielded before its exception have already been re-yielded. -/
def internalChildren (clock : Nat → ℚ) :
    List FolderNode → EmailCacheService → Nat →
      List RexItem × Option ExnClass × EmailCacheService × Nat
  | [], cache, n => ([], none, cache, n)
  | c :: cs, cache, n =>
      let rc := internalNode clock c cache n
      match rc.2.1 with
      | none =>
          let rest := internalChildren clock cs rc.2.2.1 rc.2.2.2
          (rc.1 ++ rest.1, rest.2.1, rest.2.2.1, rest.2.2.2)
      | some .apiError => (rc.1, some .apiError, rc.2.2.1, rc.2.2.2)
      | some .folderExn =>
          let rest := internalChildren clock cs rc.2.2.1 rc.2.2.2
          (rc.1 ++ rest.1, rest.2.1, rest.2.2.1, rest.2.2.2)
      | some .emailExn =>
          let rest := internalChildren clock cs rc.2.2.1 rc.2.2.2
          (rc.1 ++ rest.1, rest.2.1, rest.2.2.1, rest.2.2.2)
      | some e => (rc.1, some e, rc.2.2.1, rc.2.2.2)
end

/-- The request context {ref_type, ref_id, created_by}. -/
structure RecursiveEmailRequestDTO where
  ref_type : String
  ref_id : Int
  created_by : Int
deriving DecidableEq, Repr

/-- EmailUtils.email_to_db_email_recursive restricted to the modelled DBEmail
columns.  Note the source: graph_message_id is set to email.source_id (not a
translated immutable id). -/
def email_to_db_email_recursive (email : Email) (_request : RecursiveEmailRequestDTO) :
    DBEmail :=
  { graph_message_id := email.source_id
    graph_source_id := email.source_id }

/-- A DBEmailRecipient row (email foreign key, address, type). -/
structure DBEmailRecipient where
  email_id : Nat
  email_address : String
  recipient_type : String
deriving DecidableEq, Repr

/-- EmailUtils.extract_recipients_from_email: TO, CC then BCC rows. -/
def extract_recipients_from_email (email : Email) (email_id : Nat) :
    List DBEmailRecipient :=
  email.receivers.map (fun a => ⟨email_id, a, "TO"⟩)
    ++ email.cc.map (fun a => ⟨email_id, a, "CC"⟩)
    ++ email.bcc.map (fun a => ⟨email_id, a, "BCC"⟩)

/-- EmailUtils.extract_recipients_from_init_response_emails: match each
domain email to its persisted record by source id and extract its rows. -/
def extract_recipients_from_init_response_emails (init : List Email)
    (successful : List DBEmail) : List DBEmailRecipient :=
  let db_email_map := successful.foldl
    (fun m r => dictInsert m r.graph_source_id r) []
  (init.filterMap (fun e =>
    match dictGet db_email_map e.source_id with
    | some r => some (extract_recipients_from_email e (r.email_id.getD 0))
    | none => none)).flatten

/-- EmailUtils.extract_email_ids_from_results: internal ids of the
successful records, stable message ids of the duplicates, volatile source
ids of the failures. -/
def extract_email_ids_from_results (s d f : List DBEmail) :
    List Nat × List String × List String :=
  (s.filterMap (fun r => r.email_id), d.map (fun r => r.graph_message_id),
   f.map (fun r => r.graph_source_id))

/-- The non-list items of an internal stream (forwarded to the client by the
isinstance dispatch of get_all_emails_recursively). -/
def rexNonList (items : List RexItem) : List RexItem :=
  items.filterMap (fun it =>
    match it with
    | .emailsItem _ => none
    | x => some x)

/-- The concatenation of the internal stream's email lists (all_emails of
get_all_emails_recursively). -/
def rexEmails (items : List RexItem) : List Email :=
  (items.filterMap (fun it =>
    match it with
    | .emailsItem es => some es
    | _ => none)).flatten

/-- RecursiveEmailService.get_all_emails_recursively: emit initializing,
consume the internal traversal (lists into all_emails, everything else
forwarded), then either persist and emit persistence_complete, or emit a
warning and raise a recursive-email error for an empty result - which the
method's own generic except-Exception handler catches, emitting one error
event and re-raising a wrapping RecursiveEmailException.  Exceptions escaping
the traversal go through the same handlers: APIError re-raises bare,
EmailPersistenceException (also raised by the persistence step or the
recipient save, whose failure is modelled by the recipSaveFails oracle)
yields an error event then re-raises, anything else yields an error event
then raises a wrapping RecursiveEmailException. -/
def getAllEmailsRecursively (clock : Nat → ℚ) (persistDb : DBEmail → PersistOutcome)
    (recipSaveFails : Bool) (tree : FolderNode)
    (request : RecursiveEmailRequestDTO) (cache : EmailCacheService) (n : Nat) :
    List RexItem × Option ExnClass × EmailCacheService × Nat :=
  let initEv := RexItem.statusEv
    ⟨"initializing", "Starting recursive email retrieval", some tree.fid, none⟩
  let ri := internalNode clock tree cache n
  let yields := initEv :: rexNonList ri.1
  let all_emails := rexEmails ri.1
  match ri.2.1 with
  | some .apiError => (yields, some .apiError, ri.2.2.1, ri.2.2.2)
  | some .emailPersistenceExn =>
      (yields ++ [RexItem.statusEv ⟨"error", "No emails were saved", none, none⟩],
       some .emailPersistenceExn, ri.2.2.1, ri.2.2.2)
  | some _ =>
      (yields ++ [RexItem.statusEv
          ⟨"error", "Failed to recursively retrieve emails", none, none⟩],
       some .recursiveEmailExn, ri.2.2.1, ri.2.2.2)
  | none =>
      if all_emails ≠ [] then
        let db_emails := all_emails.map (fun e => email_to_db_email_recursive e request)
        match bulkSaveEmails persistDb db_emails with
        | .error _ =>
            (yields ++ [RexItem.statusEv ⟨"error", "No emails were saved", none, none⟩],
             some .emailPersistenceExn, ri.2.2.1, ri.2.2.2)
        | .ok (s, d, f) =>
            let all_recipients :=
              if s ≠ [] then extract_recipients_from_init_response_emails all_emails s
              else []
            if all_recipients ≠ [] ∧ recipSaveFails then
              (yields ++ [RexItem.statusEv ⟨"error", "No emails were saved", none, none⟩],
               some .emailPersistenceExn, ri.2.2.1, ri.2.2.2)
            else
              let ids := extract_email_ids_from_results s d f
              let total := ids.1.length + ids.2.1.length + ids.2.2.length
              (yields ++ [RexItem.statusEv
                  ⟨"persistence_complete",
                    "Emails: " ++ toString s.length ++ " saved, "
                      ++ toString d.length ++ " duplicates, "
                      ++ toString f.length ++ " failed.",
                    none, some ⟨total, ids.1, ids.2.1, ids.2.2⟩⟩],
               none, ri.2.2.1, ri.2.2.2)
      else
        (yields
            ++ [RexItem.statusEv ⟨"warning", "No emails were found to process", none, none⟩,
              RexItem.statusEv
                ⟨"error", "Failed to recursively retrieve emails", none, none⟩],
         some .recursiveEmailExn, ri.2.2.1, ri.2.2.2)

mutual
/-- Whether every collection stream in the tree yields only progress dicts
(no email lists) - the shape of a traversal over folders that are all empty
(claim C1's empty-folder stream). -/
def nodeNoLists : FolderNode → Bool
  | .mk _ _ _ items _ children =>
      items.all (fun it =>
        match it with
        | CollectItem.progress _ => true
        | CollectItem.emails _ => false) && nodesNoLists children

/-- nodeNoLists over a forest. -/
def nodesNoLists : List FolderNode → Bool
  | [] => true
  | c :: cs => nodeNoLists c && nodesNoLists cs
end

theorem consume_progress_only (clock : Nat → ℚ) (fid : String)
    (cached : List Email) :
    ∀ (items : List CollectItem),
      items.all (fun it =>
        match it with
        | CollectItem.progress _ => true
        | CollectItem.emails _ => false) = true →
      ∀ (ne : List Email) (c : EmailCacheService) (k : Nat) (ys : List RexItem),
        items.foldl (consumeCollectItem clock fid cached) (ne, c, k, ys)
          = (ne, c, k, ys ++ items.filterMap (fun it =>
              match it with
              | CollectItem.progress p => some (RexItem.metricsEv p)
              | CollectItem.emails _ => none)) := by
  intro items
  induction items with
  | nil => intro _ ne c k ys; simp
  | cons it rest ih =>
      intro hall ne c k ys
      rw [List.all_cons, Bool.and_eq_true] at hall
      cases it with
      | progress p =>
          rw [List.foldl_cons]
          rw [consumeCollectItem]
          rw [ih hall.2]
          simp
      | emails es => simp at hall

mutual
/-- Over a tree whose collection streams yield no lists, starting from an
empty cache, the internal traversal yields only forwarded progress dicts and
leaves the cache untouched. -/
theorem internalNode_no_lists (clock : Nat → ℚ) (node : FolderNode)
    (cache : EmailCacheService) (n : Nat) (hnl : nodeNoLists node = true)
    (hcache : cache.cache = []) :
    (∀ it ∈ (internalNode clock node cache n).1, ∃ p, it = RexItem.metricsEv p) ∧
      (internalNode clock node cache n).2.2.1 = cache := by
  match node with
  | .mk fid ff cf items cexn children =>
    rw [nodeNoLists, Bool.and_eq_true] at hnl
    have hci : getCacheInfo cache (clock n) fid = (none, cache) := by
      rw [getCacheInfo, isFolderCached, hcache]
      rfl
    cases ff with
    | some e => exact ⟨by intro it hit; simp [internalNode] at hit, rfl⟩
    | none =>
      cases cf with
      | some e => exact ⟨by intro it hit; simp [internalNode] at hit, rfl⟩
      | none =>
        rw [internalNode.eq_def]
        dsimp only
        rw [hci]
        dsimp only
        rw [consume_progress_only clock fid [] items hnl.1]
        dsimp only
        cases cexn with
        | some e =>
            refine ⟨?_, rfl⟩
            intro it hit
            rw [List.nil_append, List.mem_filterMap] at hit
            obtain ⟨a, _, ha⟩ := hit
            cases a with
            | progress p => exact ⟨p, by simp at ha; exact ha.symm⟩
            | emails es => simp at ha
        | none =>
            dsimp only
            rw [if_neg (by simp)]
            have hrec := internalChildren_no_lists clock children cache (n + 1) hnl.2 hcache
            refine ⟨?_, hrec.2⟩
            intro it hit
            rw [List.append_nil, List.nil_append, List.mem_append] at hit
            rcases hit with h | h
            · rw [List.mem_filterMap] at h
              obtain ⟨a, _, ha⟩ := h
              cases a with
              | progress p => exact ⟨p, by simp at ha; exact ha.symm⟩
              | emails es => simp at ha
            · exact hrec.1 it h

/-- internalNode_no_lists over a forest. -/
theorem internalChildren_no_lists (clock : Nat → ℚ) (cs : List FolderNode)
    (cache : EmailCacheService) (n : Nat) (hnl : nodesNoLists cs = true)
    (hcache : cache.cache = []) :
    (∀ it ∈ (internalChildren clock cs cache n).1, ∃ p, it = RexItem.metricsEv p) ∧
      (internalChildren clock cs cache n).2.2.1 = cache := by
  match cs with
  | [] => exact ⟨by intro it hit; simp [internalChildren] at hit, rfl⟩
  | c :: rest =>
    rw [nodesNoLists, Bool.and_eq_true] at hnl
    have hc := internalNode_no_lists clock c cache n hnl.1 hcache
    have hcache2 : (internalNode clock c cache n).2.2.1.cache = [] := by
      rw [hc.2]; exact hcache
    rw [internalChildren.eq_def]
    dsimp only
    cases hesc : (internalNode clock c cache n).2.1 with
    | none =>
        dsimp only
        have hrest := internalChildren_no_lists clock rest
          (internalNode clock c cache n).2.2.1 (internalNode clock c cache n).2.2.2
          hnl.2 hcache2
        refine ⟨?_, by rw [hrest.2, hc.2]⟩
        intro it hit
        rw [List.mem_append] at hit
        rcases hit with h | h
        · exact hc.1 it h
        · exact hrest.1 it h
    | some e =>
        cases e with
        | apiError => exact ⟨fun it hit => hc.1 it hit, hc.2⟩
        | folderExn =>
            dsimp only
            have hrest := internalChildren_no_lists clock rest
              (internalNode clock c cache n).2.2.1 (internalNode clock c cache n).2.2.2
              hnl.2 hcache2
            refine ⟨?_, by rw [hrest.2, hc.2]⟩
            intro it hit
            rw [List.mem_append] at hit
            rcases hit with h | h
            · exact hc.1 it h
            · exact hrest.1 it h
        | emailExn =>
            dsimp only
            have hrest := internalChildren_no_lists clock rest
              (internalNode clock c cache n).2.2.1 (internalNode clock c cache n).2.2.2
              hnl.2 hcache2
            refine ⟨?_, by rw [hrest.2, hc.2]⟩
            intro it hit
            rw [List.mem_append] at hit
            rcases hit with h | h
            · exact hc.1 it h
            · exact hrest.1 it h
        | timeoutError => exact ⟨fun it hit => hc.1 it hit, hc.2⟩
        | integrityError => exact ⟨fun it hit => hc.1 it hit, hc.2⟩
        | idTranslationExn => exact ⟨fun it hit => hc.1 it hit, hc.2⟩
        | emailPersistenceExn => exact ⟨fun it hit => hc.1 it hit, hc.2⟩
        | recursiveEmailExn => exact ⟨fun it hit => hc.1 it hit, hc.2⟩
        | otherExn code => exact ⟨fun it hit => hc.1 it hit, hc.2⟩
end

theorem filterMap_id_of_some (g : α → Option α) :
    ∀ l : List α, (∀ a ∈ l, g a = some a) → l.filterMap g = l := by
  intro l
  induction l with
  | nil => intro _; rfl
  | cons a rest ih =>
      intro h
      rw [List.filterMap_cons, h a (by simp), ih (fun b hb => h b (by simp [hb]))]

/-- Claim C5 (amended): over a folder tree whose collection streams yield no
email lists (all folders empty), starting from an empty cache, a completing
traversal makes the orchestrator emit the initializing event, then only
collection progress dictionaries (zero new-email progress events), then the
warning event, then one error status event - emitted by the generic
except-Exception handler that catches the RecursiveEmailException raised
after the warning - before the wrapping recursive-email error reaches the
caller.  The warning is not the last status event. -/
theorem C5_empty_result (clock : Nat → ℚ) (persistDb : DBEmail → PersistOutcome)
    (recipSaveFails : Bool) (tree : FolderNode) (request : RecursiveEmailRequestDTO)
    (cache : EmailCacheService) (n : Nat)
    (hnl : nodeNoLists tree = true) (hcache : cache.cache = [])
    (hesc : (internalNode clock tree cache n).2.1 = none) :
    (∀ it ∈ (internalNode clock tree cache n).1, ∃ p, it = RexItem.metricsEv p) ∧
      (getAllEmailsRecursively clock persistDb recipSaveFails tree request cache n).1
        = RexItem.statusEv
            ⟨"initializing", "Starting recursive email retrieval", some tree.fid, none⟩
            :: (internalNode clock tree cache n).1
          ++ [RexItem.statusEv ⟨"warning", "No emails were found to process", none, none⟩,
            RexItem.statusEv
              ⟨"error", "Failed to recursively retrieve emails", none, none⟩] ∧
      (getAllEmailsRecursively clock persistDb recipSaveFails tree request cache n).2.1
        = some .recursiveEmailExn := by
  have hall := (internalNode_no_lists clock tree cache n hnl hcache).1
  have hnlq : rexNonList (internalNode clock tree cache n).1
      = (internalNode clock tree cache n).1 := by
    rw [rexNonList]
    apply filterMap_id_of_some
    intro a ha
    obtain ⟨p, hp⟩ := hall a ha
    subst hp
    rfl
  have hemp : rexEmails (internalNode clock tree cache n).1 = [] := by
    rw [rexEmails]
    have h0 : (internalNode clock tree cache n).1.filterMap (fun it =>
        match it with
        | RexItem.emailsItem es => some es
        | _ => none) = ([] : List (List Email)) := by
      rw [List.filterMap_eq_nil_iff]
      intro a ha
      obtain ⟨p, hp⟩ := hall a ha
      subst hp
      rfl
    rw [h0]
    rfl
  refine ⟨hall, ?_, ?_⟩
  · rw [getAllEmailsRecursively]
    dsimp only
    rw [hesc]
    dsimp only
    rw [hemp]
    rw [if_neg (by simp)]
    rw [hnlq]
  · rw [getAllEmailsRecursively]
    dsimp only
    rw [hesc]
    dsimp only
    rw [hemp]
    rw [if_neg (by simp)]

/-- Concrete request context for the orchestrator runs below. -/
def req5 : RecursiveEmailRequestDTO := ⟨"task", 1, 2⟩

/-- A one-folder tree whose collection stream is exactly the stream the
collection service yields for an empty folder (claim C1's counterexample
stream). -/
def tree5 : FolderNode := .mk "root" none none emptyFolderStream none []

/-- A constant clock. -/
def clock0 : Nat → ℚ := fun _ => 0

/-- The orchestrator run over the empty one-folder tree. -/
def run5 : List RexItem × Option ExnClass × EmailCacheService × Nat :=
  getAllEmailsRecursively clock0 dbTriState false tree5 req5 {} 0

/-- Claim C5 counterexample: on the empty tree the last yielded status event
is the error event emitted by the generic exception handler, not the warning
- contradicting "emits a warning event as the last status event" and "no
further status event follows the warning before the exception reaches the
caller"; the escaping exception is the wrapping recursive-email error. -/
theorem C5_counterexample :
    run5.1.getLast? = some (RexItem.statusEv
        ⟨"error", "Failed to recursively retrieve emails", none, none⟩) ∧
      run5.2.1 = some ExnClass.recursiveEmailExn ∧
      run5.1.countP (fun it =>
        match it with
        | RexItem.statusEv s => s.status == "warning"
        | _ => false) = 1 := by
  decide

/-- The progress snapshot of the empty-folder fetch. -/
def pE : ProgressInfo := ⟨"fetching", 0, 0, 0, 0, 1, 0⟩

/-- A one-folder tree whose collection stream is a single fetch progress
snapshot. -/
def treeW5 : FolderNode := .mk "root" none none [CollectItem.progress pE] none []

/-- Witness for C5 (amended) at the one-folder empty tree. -/
theorem C5_empty_result_witness :
    nodeNoLists treeW5 = true ∧
      (getAllEmailsRecursively clock0 dbTriState false treeW5 req5 {} 0).1
        = RexItem.statusEv
            ⟨"initializing", "Starting recursive email retrieval",
              some treeW5.fid, none⟩
            :: (internalNode clock0 treeW5 {} 0).1
          ++ [RexItem.statusEv ⟨"warning", "No emails were found to process", none, none⟩,
            RexItem.statusEv
              ⟨"error", "Failed to recursively retrieve emails", none, none⟩] ∧
      (getAllEmailsRecursively clock0 dbTriState false treeW5 req5 {} 0).2.1
        = some ExnClass.recursiveEmailExn := by
  have hnl : nodeNoLists treeW5 = true := by
    rw [treeW5, nodeNoLists]
    rfl
  have hesc : (internalNode clock0 treeW5 {} 0).2.1 = none := by
    rw [treeW5, internalNode.eq_def]
    rfl
  have h := C5_empty_result clock0 dbTriState false treeW5 req5 {} 0 hnl rfl hesc
  exact ⟨hnl, h.2.1, h.2.2⟩

/-- A child folder whose get_folder call raises a FolderException. -/
def childBad : FolderNode := .mk "bad" (some ExnClass.folderExn) none [] none []

/-- A child folder whose collection stream raises an APIError. -/
def childApi : FolderNode := .mk "api" none none [] (some ExnClass.apiError) []

/-- A clean child folder with an empty collection stream. -/
def childOk : FolderNode := .mk "ok" none none [] none []

/-- Claim C9: in the recursive folder walk, (i) a FolderException or
EmailException escaping a subfolder is swallowed by the subfolder loop, which
keeps the child's yields and continues with the remaining siblings at the
child's resulting cache and clock; (ii) the subfolder loop never lets a
FolderException or EmailException escape, at any depth; (iii) an APIError
escaping a subfolder stops the loop and escapes; (iv) a clean node passes its
children-loop escape through unchanged, so an APIError propagates from any
depth; (v) the same FolderException raised by get_folder for the folder the
walk was directly invoked on escapes that walk invocation unchanged, as does
a collection-phase exception of the invoked folder; (vi) an APIError escaping
the walk also escapes the public orchestrator method bare. -/
theorem C9_subfolder_error_handling (clock : Nat → ℚ) :
    (∀ (c : FolderNode) (cs : List FolderNode) (cache : EmailCacheService)
        (n : Nat) (e : ExnClass),
      (internalNode clock c cache n).2.1 = some e →
      e = ExnClass.folderExn ∨ e = ExnClass.emailExn →
      internalChildren clock (c :: cs) cache n
        = ((internalNode clock c cache n).1
              ++ (internalChildren clock cs (internalNode clock c cache n).2.2.1
                  (internalNode clock c cache n).2.2.2).1,
            (internalChildren clock cs (internalNode clock c cache n).2.2.1
              (internalNode clock c cache n).2.2.2).2.1,
            (internalChildren clock cs (internalNode clock c cache n).2.2.1
              (internalNode clock c cache n).2.2.2).2.2.1,
            (internalChildren clock cs (internalNode clock c cache n).2.2.1
              (internalNode clock c cache n).2.2.2).2.2.2)) ∧
    (∀ (cs : List FolderNode) (cache : EmailCacheService) (n : Nat),
      (internalChildren clock cs cache n).2.1 ≠ some ExnClass.folderExn ∧
        (internalChildren clock cs cache n).2.1 ≠ some ExnClass.emailExn) ∧
    (∀ (c : FolderNode) (cs : List FolderNode) (cache : EmailCacheService) (n : Nat),
      (internalNode clock c cache n).2.1 = some ExnClass.apiError →
      internalChildren clock (c :: cs) cache n
        = ((internalNode clock c cache n).1, some ExnClass.apiError,
            (internalNode clock c cache n).2.2.1,
            (internalNode clock c cache n).2.2.2)) ∧
    (∀ (fid : String) (items : List CollectItem) (children : List FolderNode)
        (cache : EmailCacheService) (n : Nat),
      ∃ (cache2 : EmailCacheService) (k : Nat),
        (internalNode clock (.mk fid none none items none children) cache n).2.1
          = (internalChildren clock children cache2 k).2.1) ∧
    (∀ (fid : String) (e : ExnClass) (cf : Option ExnClass)
        (items : List CollectItem) (cexn : Option ExnClass)
        (children : List FolderNode) (cache : EmailCacheService) (n : Nat),
      internalNode clock (.mk fid (some e) cf items cexn children) cache n
        = ([], some e, cache, n)) ∧
    (∀ (fid : String) (e : ExnClass) (items : List CollectItem)
        (children : List FolderNode) (cache : EmailCacheService) (n : Nat),
      (internalNode clock (.mk fid none none items (some e) children) cache n).2.1
        = some e) ∧
    (∀ (persistDb : DBEmail → PersistOutcome) (rsf : Bool) (tree : FolderNode)
        (request : RecursiveEmailRequestDTO) (cache : EmailCacheService) (n : Nat),
      (internalNode clock tree cache n).2.1 = some ExnClass.apiError →
      (getAllEmailsRecursively clock persistDb rsf tree request cache n).2.1
        = some ExnClass.apiError) := by
  refine ⟨?_, ?_, ?_, ?_, ?_, ?_, ?_⟩
  · intro c cs cache n e hesc he
    rw [internalChildren.eq_def]
    dsimp only
    rw [hesc]
    rcases he with he | he <;> subst he <;> rfl
  · intro cs
    induction cs with
    | nil =>
        intro cache n
        rw [internalChildren.eq_def]
        exact ⟨by simp, by simp⟩
    | cons c rest ih =>
        intro cache n
        rw [internalChildren.eq_def]
        dsimp only
        cases hesc : (internalNode clock c cache n).2.1 with
        | none => exact ih _ _
        | some e =>
            cases e with
            | apiError => exact ⟨by simp, by simp⟩
            | folderExn => exact ih _ _
            | emailExn => exact ih _ _
            | integrityError => exact ⟨by simp, by simp⟩
            | timeoutError => exact ⟨by simp, by simp⟩
            | idTranslationExn => exact ⟨by simp, by simp⟩
            | emailPersistenceExn => exact ⟨by simp, by simp⟩
            | recursiveEmailExn => exact ⟨by simp, by simp⟩
            | otherExn k => exact ⟨by simp, by simp⟩
  · intro c cs cache n hesc
    rw [internalChildren.eq_def]
    dsimp only
    rw [hesc]
  · intro fid items children cache n
    rw [internalNode.eq_def]
    dsimp only
    exact ⟨_, _, rfl⟩
  · intro fid e cf items cexn children cache n
    rw [internalNode.eq_def]
  · intro fid e items children cache n
    rw [internalNode.eq_def]
  · intro persistDb rsf tree request cache n hesc
    rw [getAllEmailsRecursively]
    dsimp only
    rw [hesc]

/-- Witness for C9 at a concrete subfolder list: the failing child's
FolderException is swallowed with traversal continuing at the sibling, and a
child APIError stops the loop. -/
theorem C9_subfolder_error_handling_witness :
    ((internalNode clock0 childBad ({} : EmailCacheService) 0).2.1
        = some ExnClass.folderExn ∧
      internalChildren clock0 [childBad, childOk] ({} : EmailCacheService) 0
        = ((internalNode clock0 childBad ({} : EmailCacheService) 0).1
              ++ (internalChildren clock0 [childOk]
                  (internalNode clock0 childBad ({} : EmailCacheService) 0).2.2.1
                  (internalNode clock0 childBad ({} : EmailCacheService) 0).2.2.2).1,
            (internalChildren clock0 [childOk]
              (internalNode clock0 childBad ({} : EmailCacheService) 0).2.2.1
              (internalNode clock0 childBad ({} : EmailCacheService) 0).2.2.2).2.1,
            (internalChildren clock0 [childOk]
              (internalNode clock0 childBad ({} : EmailCacheService) 0).2.2.1
              (internalNode clock0 childBad ({} : EmailCacheService) 0).2.2.2).2.2.1,
            (internalChildren clock0 [childOk]
              (internalNode clock0 childBad ({} : EmailCacheService) 0).2.2.1
              (internalNode clock0 childBad ({} : EmailCacheService) 0).2.2.2).2.2.2)) ∧
      ((internalNode clock0 childApi ({} : EmailCacheService) 0).2.1
          = some ExnClass.apiError ∧
        internalChildren clock0 [childApi, childOk] ({} : EmailCacheService) 0
          = ((internalNode clock0 childApi ({} : EmailCacheService) 0).1,
              some ExnClass.apiError,
              (internalNode clock0 childApi ({} : EmailCacheService) 0).2.2.1,
              (internalNode clock0 childApi ({} : EmailCacheService) 0).2.2.2)) ∧
      (getAllEmailsRecursively clock0 dbTriState false childApi req5
          ({} : EmailCacheService) 0).2.1 = some ExnClass.apiError := by
  have h1 : (internalNode clock0 childBad ({} : EmailCacheService) 0).2.1
      = some ExnClass.folderExn := by
    rw [childBad, internalNode.eq_def]
  have h2 : (internalNode clock0 childApi ({} : EmailCacheService) 0).2.1
      = some ExnClass.apiError := by
    rw [childApi, internalNode.eq_def]
  exact ⟨⟨h1, (C9_subfolder_error_handling clock0).1 childBad [childOk] {} 0
      ExnClass.folderExn h1 (Or.inl rfl)⟩,
    ⟨h2, (C9_subfolder_error_handling clock0).2.2.1 childApi [childOk] {} 0 h2⟩,
    (C9_subfolder_error_handling clock0).2.2.2.2.2.2 dbTriState false childApi
      req5 {} 0 h2⟩

/-- Claim C10 (amended): if a folder has a valid unexpired cache entry whose
email map is NONEMPTY and the fresh fetch returns only emails whose source_id
is already in that entry, the walk of that folder emits the cache-hit
progress event, filters the fresh list down to nothing, performs no store
(the cache value, the entry and its timestamp included, is returned
unchanged), emits no new-email progress event, and still contributes the
cached emails as the folder's email list.  (Nonemptiness is needed: the
cache-merge branches on the truthiness of the cached email list, so a valid
but empty entry takes the store-and-yield branch instead - see the
counterexample.) -/
theorem C10_cache_preserved (clock : Nat → ℚ) (fid : String) (fresh : List Email)
    (cache : EmailCacheService) (n : Nat) (entry : CacheEntry)
    (hget : dictGet cache.cache fid = some entry)
    (hvalid : ¬(clock n - entry.timestamp > cache.cache_ttl))
    (hne : entry.emails ≠ [])
    (hsub : ∀ e ∈ fresh,
      e.source_id ∈ (entry.emails.map Prod.snd).map Email.source_id) :
    internalNode clock (.mk fid none none [CollectItem.emails fresh] none []) cache n
      = ([RexItem.statusEv ⟨"progress",
            "Retrieved " ++ toString (entry.emails.map Prod.snd).length
              ++ " emails from cache", some fid, none⟩,
          RexItem.emailsItem (entry.emails.map Prod.snd)],
         none, cache, n + 1) := by
  have hci : getCacheInfo cache (clock n) fid
      = (some ⟨fid, entry.emails.length, clock n - entry.timestamp, cache.cache_ttl⟩,
         cache) := by
    rw [getCacheInfo, isFolderCached, hget]
    dsimp only
    rw [if_neg hvalid]
    dsimp only
    rw [if_pos rfl, hget]
  have hne2 : entry.emails.map Prod.snd ≠ [] := by
    simpa using hne
  have hfilter : fresh.filter (fun e =>
      decide (e.source_id ∉ (entry.emails.map Prod.snd).map Email.source_id)) = [] := by
    rw [List.filter_eq_nil_iff]
    intro a ha
    simp only [decide_eq_true_eq, not_not]
    exact hsub a ha
  rw [internalNode.eq_def]
  dsimp only
  rw [hci]
  dsimp only
  rw [hget]
  dsimp only
  rw [List.foldl_cons, List.foldl_nil, consumeCollectItem]
  dsimp only
  rw [if_pos hne2, hfilter, if_neg (by simp)]
  dsimp only
  rw [List.append_nil]
  rw [if_pos hne2]
  rw [internalChildren.eq_def]
  dsimp only
  simp

/-- A cache whose only entry (for folder f) is valid but empty. -/
def cache10 : EmailCacheService := ⟨[("f", ⟨[], 0, "f"⟩)], 300⟩

/-- Folder f with a fresh fetch yielding the empty email list. -/
def node10 : FolderNode := .mk "f" none none [CollectItem.emails []] none []

/-- A clock ticking 10, 20, 30, ... -/
def clock10 : Nat → ℚ := fun k => 10 * (k + 1)

/-- Claim C10 counterexample: folder f's cache entry is valid and unexpired
at lookup time and the fresh fetch returns only already-cached emails
(vacuously - it is empty), yet the walk stores: the entry is replaced with a
new timestamp, and a retrieval progress event is emitted for the folder. -/
theorem C10_counterexample :
    (isFolderCached cache10 (clock10 0) "f").1 = true ∧
      (internalNode clock10 node10 cache10 0).2.2.1.cache
        = [("f", ⟨[], 20, "f"⟩)] ∧
      (internalNode clock10 node10 cache10 0).1
        = [RexItem.statusEv
            ⟨"progress", "Retrieved 0 emails from cache", some "f", none⟩,
          RexItem.statusEv ⟨"progress", "Retrieved 0 emails", some "f", none⟩] := by
  refine ⟨by norm_num [isFolderCached, cache10, clock10, dictGet], ?_, ?_⟩ <;>
    norm_num +decide [internalNode.eq_def, internalChildren.eq_def, node10, cache10,
      clock10, getCacheInfo, isFolderCached, clearFolderCache, consumeCollectItem,
      storeFolderEmails, dictGet, dictInsert]

/-- The email and cache entry of the C10 witness. -/
def eW10 : Email := { source_id := "s1" }

/-- A valid nonempty cache entry for folder g holding eW10. -/
def entryW10 : CacheEntry := ⟨[("s1", eW10)], 0, "g"⟩

/-- The cache of the C10 witness. -/
def cacheW10 : EmailCacheService := ⟨[("g", entryW10)], 300⟩

/-- Witness for C10 (amended): folder g's nonempty valid entry survives a
fresh fetch returning only the already-cached email. -/
theorem C10_cache_preserved_witness :
    dictGet cacheW10.cache "g" = some entryW10 ∧
      internalNode clock0 (FolderNode.mk "g" none none
          [CollectItem.emails [eW10]] none []) cacheW10 0
        = ([RexItem.statusEv ⟨"progress",
              "Retrieved " ++ toString (entryW10.emails.map Prod.snd).length
                ++ " emails from cache", some "g", none⟩,
            RexItem.emailsItem (entryW10.emails.map Prod.snd)],
           none, cacheW10, 0 + 1) := by
  have hget : dictGet cacheW10.cache "g" = some entryW10 := by
    rw [cacheW10]
    rfl
  refine ⟨hget, ?_⟩
  exact C10_cache_preserved clock0 "g" [eW10] cacheW10 0 entryW10 hget
    (by norm_num [clock0, cacheW10, entryW10])
    (by simp [entryW10])
    (by intro e he
        rw [List.mem_singleton] at he
        subst he
        simp [entryW10])

end GraphMail
